import Mathlib

/-!
Verification development for the 4D-HumansAPI job-scheduling and
pipeline-orchestration core.

The definitions below are a shallow embedding of the Python sources:
  * `src/api/services/task_manager.py`  (job registry)
  * `src/api/services/worker.py`        (scheduler loop)
  * `src/api/services/pipeline.py`      (pipeline executor / process invoker)

Modelling conventions:
  * task ids (`uuid4` strings) are modelled as `Nat`; their uniqueness is
    modelled by a ghost list `used` of all ids ever issued;
  * wall-clock instants (`datetime.now()` / `time.time()`) are `Int`
    parameters supplied to each operation; durations are `Int` seconds;
  * the Python `dict` of tasks is an insertion-ordered association list;
  * floats that only feed averages are modelled as `Int`/`Rat`;
  * all external effects of the pipeline (subprocess runs, filesystem
    queries, `shutil.move`, `joblib.load`, file deletion) are an oracle
    `PipeEnv` of pure functions, and each operation additionally returns
    the list of effect `Event`s it performed, in order.
-/

namespace FourDH

/-- `TaskStatus` from `src/api/constants.py`. -/
inductive TaskStatus where
  | queued
  | processing
  | completed
  | failed
deriving DecidableEq, Repr

/-- The `Task` pydantic model from `src/api/models/task.py` (fields the
registry mutates; `video_info` and tuning params are not modelled since no
claim mentions them). -/
structure Task where
  task_id : Nat
  status : TaskStatus
  current_step : Option String := none
  progress : Nat := 0
  video_path : Option String := none
  tracking_pkl : Option String := none
  extracted_npz : Option String := none
  smoothed_npz : Option String := none
  fbx_path : Option String := none
  created_at : Int := 0
  started_at : Option Int := none
  completed_at : Option Int := none
  error_code : Option String := none
  error_message : Option String := none
  error_details : Option String := none
  processing_time : Option Int := none
deriving DecidableEq, Repr

/-- Lookup in the insertion-ordered dict `self.tasks` (`self.tasks.get(id)`). -/
def lookupTask : List (Nat × Task) → Nat → Option Task
  | [], _ => none
  | (k, t) :: rest, tid => if k = tid then some t else lookupTask rest tid

/-- Dict assignment `self.tasks[id] = t`: replaces the binding in place if
the key is present, appends otherwise (Python dicts keep insertion order). -/
def setTask : List (Nat × Task) → Nat → Task → List (Nat × Task)
  | [], tid, t => [(tid, t)]
  | (k, u) :: rest, tid, t =>
      if k = tid then (tid, t) :: rest else (k, u) :: setTask rest tid t

/-- Dict deletion `del self.tasks[id]` (a dict holds each key at most once,
so deletion removes every binding of the key). -/
def removeTask (l : List (Nat × Task)) (tid : Nat) : List (Nat × Task) :=
  l.filter (fun p => p.1 != tid)

/-- `list.remove(x)` on the wait queue: removes the first occurrence, which
is also a no-op when absent, matching the guarded
`if task_id in self.queue: self.queue.remove(task_id)`. -/
def removeFirstId : List Nat → Nat → List Nat
  | [], _ => []
  | k :: rest, tid => if k = tid then rest else k :: removeFirstId rest tid

/-- The `TaskManager` state from `src/api/services/task_manager.py`. -/
structure TaskManager where
  tasks : List (Nat × Task) := []
  queue : List Nat := []
  current_task_id : Option Nat := none
  start_time : Int := 0
  total_tasks : Nat := 0
  completed_tasks : Nat := 0
  failed_tasks : Nat := 0
deriving DecidableEq, Repr

/-- `TaskManager.__init__`. -/
def TaskManager.mkInit (now : Int) : TaskManager :=
  { start_time := now }

/-- `TaskManager.create_task` (the fresh `uuid4` id is a parameter). -/
def createTask (m : TaskManager) (tid : Nat) (video_path : String) (now : Int) :
    Task × TaskManager :=
  let t : Task :=
    { task_id := tid, status := TaskStatus.queued, progress := 0,
      video_path := some video_path, created_at := now }
  (t, { m with
        tasks := setTask m.tasks tid t,
        queue := m.queue ++ [tid],
        total_tasks := m.total_tasks + 1 })

/-- `TaskManager.get_next_task`: returns `none` when the queue is empty or a
current task is set; otherwise pops the queue head, and if its record exists
marks it processing and current. -/
def getNextTask (m : TaskManager) (now : Int) : Option Task × TaskManager :=
  match m.queue with
  | [] => (none, m)
  | tid :: rest =>
      if m.current_task_id.isSome then (none, m)
      else
        match lookupTask m.tasks tid with
        | none => (none, { m with queue := rest })
        | some t =>
            let t2 := { t with status := TaskStatus.processing, started_at := some now }
            (some t2,
             { m with
               queue := rest,
               current_task_id := some tid,
               tasks := setTask m.tasks tid t2 })

/-- `TaskManager.update_task_step`: no-op on an unknown id. -/
def updateTaskStep (m : TaskManager) (tid : Nat) (step : String) (progress : Nat) :
    TaskManager :=
  match lookupTask m.tasks tid with
  | none => m
  | some t =>
      let t2 := { t with current_step := some step, progress := progress }
      { m with tasks := setTask m.tasks tid t2 }

/-- `TaskManager.complete_task`: no-op on an unknown id; otherwise records the
artifacts, sets status completed, progress 100, computes the duration when a
started timestamp exists, clears the current slot and bumps the counter. -/
def completeTask (m : TaskManager) (tid : Nat) (fbx_path : String)
    (tracking_pkl extracted_npz smoothed_npz : Option String) (now : Int) :
    TaskManager :=
  match lookupTask m.tasks tid with
  | none => m
  | some t =>
      let t1 := { t with
        status := TaskStatus.completed,
        completed_at := some now,
        fbx_path := some fbx_path,
        tracking_pkl := tracking_pkl,
        extracted_npz := extracted_npz,
        smoothed_npz := smoothed_npz,
        progress := 100 }
      let t2 := match t1.started_at with
        | some st => { t1 with processing_time := some (now - st) }
        | none => t1
      { m with
        tasks := setTask m.tasks tid t2,
        current_task_id := none,
        completed_tasks := m.completed_tasks + 1 }

/-- `TaskManager.fail_task`: no-op on an unknown id; otherwise records the
error descriptor, computes the duration when a started timestamp exists,
clears the current slot and bumps the failure counter. -/
def failTask (m : TaskManager) (tid : Nat) (error_message error_code : String)
    (error_details : Option String) (now : Int) : TaskManager :=
  match lookupTask m.tasks tid with
  | none => m
  | some t =>
      let t1 := { t with
        status := TaskStatus.failed,
        completed_at := some now,
        error_message := some error_message,
        error_code := some error_code,
        error_details := error_details }
      let t2 := match t1.started_at with
        | some st => { t1 with processing_time := some (now - st) }
        | none => t1
      { m with
        tasks := setTask m.tasks tid t2,
        current_task_id := none,
        failed_tasks := m.failed_tasks + 1 }

/-- The file paths `delete_task` hands to `FileHandler.delete_task_files`:
video and final output always, the three intermediates unless
`keep_intermediate`, with `None` entries filtered out. -/
def deleteRequests (t : Task) (keep_intermediate : Bool) : List String :=
  ([t.video_path, t.fbx_path] ++
    (if keep_intermediate then []
     else [t.tracking_pkl, t.extracted_npz, t.smoothed_npz])).filterMap (fun x => x)

/-- `TaskManager.delete_task`: returns `false` for an unknown id; otherwise
requests deletion of the collected file paths, removes the id from the wait
queue, drops the record and returns `true`.  Note that the code never
touches `current_task_id`. -/
def deleteTask (m : TaskManager) (tid : Nat) (keep_intermediate : Bool) :
    Bool × List String × TaskManager :=
  match lookupTask m.tasks tid with
  | none => (false, [], m)
  | some t =>
      (true, deleteRequests t keep_intermediate,
       { m with
         queue := removeFirstId m.queue tid,
         tasks := removeTask m.tasks tid })

/-- The dict returned by `TaskManager.get_stats` (rates are exact rationals
standing for the Python float divisions). -/
structure Stats where
  uptime : Int
  total_tasks : Nat
  completed_tasks : Nat
  failed_tasks : Nat
  active_tasks : Nat
  queued_tasks : Nat
  success_rate : Rat
  average_processing_time : Rat
deriving DecidableEq, Repr

/-- Python truthiness of `task.processing_time`: `None` and `0.0` are falsy. -/
def hasNonzeroTime (t : Task) : Bool :=
  match t.processing_time with
  | some d => d != 0
  | none => false

/-- The list comprehension in `get_stats`: tasks still present whose status
is completed and whose `processing_time` is truthy. -/
def completedWithTime (m : TaskManager) : List (Nat × Task) :=
  m.tasks.filter (fun p =>
    p.2.status == TaskStatus.completed && hasNonzeroTime p.2)

/-- `TaskManager.get_stats`. -/
def getStats (m : TaskManager) (now : Int) : Stats :=
  let success_rate : Rat :=
    if m.total_tasks > 0 then (m.completed_tasks : Rat) / (m.total_tasks : Rat) else 0
  let cwt := completedWithTime m
  let avg : Rat :=
    if cwt.length > 0 then
      ((cwt.map (fun p => ((p.2.processing_time.getD 0 : Int) : Rat))).sum) / (cwt.length : Rat)
    else 0
  { uptime := now - m.start_time,
    total_tasks := m.total_tasks,
    completed_tasks := m.completed_tasks,
    failed_tasks := m.failed_tasks,
    active_tasks := if m.current_task_id.isSome then 1 else 0,
    queued_tasks := m.queue.length,
    success_rate := success_rate,
    average_processing_time := avg }

/-! ### Association-list lemmas for the task dict -/

theorem lookupTask_setTask_self (l : List (Nat × Task)) (tid : Nat) (t : Task) :
    lookupTask (setTask l tid t) tid = some t := by
  induction l with
  | nil => simp [setTask, lookupTask]
  | cons p rest ih =>
      obtain ⟨k, u⟩ := p
      by_cases h : k = tid
      · simp [setTask, lookupTask, h]
      · simp [setTask, lookupTask, h, ih]

theorem lookupTask_setTask_ne (l : List (Nat × Task)) (tid k : Nat) (t : Task)
    (h : k ≠ tid) : lookupTask (setTask l tid t) k = lookupTask l k := by
  induction l with
  | nil => simp [setTask, lookupTask, Ne.symm h]
  | cons p rest ih =>
      obtain ⟨k2, u⟩ := p
      by_cases h2 : k2 = tid
      · subst h2
        simp [setTask, lookupTask, Ne.symm h]
      · simp only [setTask, if_neg h2]
        by_cases h3 : k2 = k
        · simp [lookupTask, h3]
        · simp [lookupTask, h3, ih]

theorem lookupTask_removeTask_self (l : List (Nat × Task)) (tid : Nat) :
    lookupTask (removeTask l tid) tid = none := by
  induction l with
  | nil => rfl
  | cons p rest ih =>
      obtain ⟨k2, u⟩ := p
      simp only [removeTask, List.filter_cons] at ih ⊢
      by_cases h : k2 = tid
      · simp [h, ih]
      · have hb : (k2 != tid) = true := bne_iff_ne.mpr h
        simp [hb, lookupTask, h, ih]

theorem lookupTask_removeTask_ne (l : List (Nat × Task)) (tid k : Nat)
    (h : k ≠ tid) : lookupTask (removeTask l tid) k = lookupTask l k := by
  induction l with
  | nil => rfl
  | cons p rest ih =>
      obtain ⟨k2, u⟩ := p
      simp only [removeTask, List.filter_cons] at ih ⊢
      by_cases h2 : k2 = tid
      · subst h2
        have hk : k2 ≠ k := fun he => h (he ▸ rfl)
        simp [lookupTask, ih, hk]
      · have hb : (k2 != tid) = true := bne_iff_ne.mpr h2
        by_cases h3 : k2 = k
        · subst h3
          simp [hb, lookupTask]
        · simp [hb, lookupTask, h3, ih]

/-! ### The scheduler loop (`src/api/services/worker.py`) as a transition system

The registry is mutated by exactly two clients: the request layer
(`routers/mocap.py`, `routers/admin.py`), which calls `create_task`,
`delete_task`, `update-free` reads, and the age-based sweep (a sequence of
`delete_task` calls); and the single `Worker` loop, which alternates between
`get_next_task` and exactly one `complete_task`/`fail_task` for the id it
claimed.  `Step` below is one atomic registry operation performed by either
client (all registry operations run on the single event loop, hence
atomically).  The ghost field `used` records every id ever issued by
`uuid4`; freshness of new ids models uuid uniqueness. -/

/-- The worker is either idle between jobs or mid-pipeline on a claimed id. -/
inductive WorkerState where
  | idle
  | busy (tid : Nat)
deriving DecidableEq, Repr

/-- Whole-system state: registry, scheduler-loop state, and the ghost list of
issued ids. -/
structure Sys where
  tm : TaskManager
  worker : WorkerState
  used : List Nat
deriving DecidableEq, Repr

/-- Service start: empty registry, idle worker. -/
def Sys.start (now : Int) : Sys :=
  { tm := TaskManager.mkInit now, worker := WorkerState.idle, used := [] }

/-- One atomic registry operation by the request layer or the worker loop. -/
inductive Step : Sys → Sys → Prop where
  | create (s : Sys) (tid : Nat) (vp : String) (now : Int)
      (hfresh : tid ∉ s.used) :
      Step s { tm := (createTask s.tm tid vp now).2, worker := s.worker,
               used := tid :: s.used }
  | claim (s : Sys) (now : Int) (hidle : s.worker = WorkerState.idle) :
      Step s { tm := (getNextTask s.tm now).2,
               worker := match (getNextTask s.tm now).1 with
                         | some t => WorkerState.busy t.task_id
                         | none => WorkerState.idle,
               used := s.used }
  | complete (s : Sys) (tid : Nat) (fbx : String)
      (tr ex sm : Option String) (now : Int)
      (hbusy : s.worker = WorkerState.busy tid) :
      Step s { tm := completeTask s.tm tid fbx tr ex sm now,
               worker := WorkerState.idle, used := s.used }
  | fail (s : Sys) (tid : Nat) (msg code : String) (det : Option String)
      (now : Int) (hbusy : s.worker = WorkerState.busy tid) :
      Step s { tm := failTask s.tm tid msg code det now,
               worker := WorkerState.idle, used := s.used }
  | updateStep (s : Sys) (tid : Nat) (st : String) (p : Nat) :
      Step s { s with tm := updateTaskStep s.tm tid st p }
  | delete (s : Sys) (tid : Nat) (keep : Bool) :
      Step s { s with tm := (deleteTask s.tm tid keep).2.2 }

/-- States reachable from some service start. -/
def Reachable (s : Sys) : Prop :=
  ∃ now : Int, Relation.ReflTransGen Step (Sys.start now) s

/-- The inductive invariant of the combined system:
1. every record is keyed by its own `task_id`;
2. a processing record's id is the current id (hence at most one processing);
3. every record key was issued by `uuid4`;
4. the worker only works on the current id;
5. the current id was issued by `uuid4`;
6. when a current id is set, either the worker is busy on it, or the worker
   is idle and the record is gone (the deleted-while-processing situation). -/
def Inv (s : Sys) : Prop :=
  (∀ tid t, lookupTask s.tm.tasks tid = some t → t.task_id = tid) ∧
  (∀ tid t, lookupTask s.tm.tasks tid = some t →
      t.status = TaskStatus.processing → s.tm.current_task_id = some tid) ∧
  (∀ tid t, lookupTask s.tm.tasks tid = some t → tid ∈ s.used) ∧
  (∀ tid, s.worker = WorkerState.busy tid → s.tm.current_task_id = some tid) ∧
  (∀ tid, s.tm.current_task_id = some tid → tid ∈ s.used) ∧
  (∀ tid, s.tm.current_task_id = some tid →
      s.worker = WorkerState.busy tid ∨
      (s.worker = WorkerState.idle ∧ lookupTask s.tm.tasks tid = none))

theorem inv_start (now : Int) : Inv (Sys.start now) := by
  refine ⟨?_, ?_, ?_, ?_, ?_, ?_⟩ <;> intro tid <;>
    simp [Sys.start, TaskManager.mkInit, lookupTask]

theorem lookupTask_setTask (l : List (Nat × Task)) (tid k : Nat) (t : Task) :
    lookupTask (setTask l tid t) k = if k = tid then some t else lookupTask l k := by
  by_cases h : k = tid
  · subst h
    simp [lookupTask_setTask_self]
  · simp [h, lookupTask_setTask_ne _ _ _ _ h]

theorem lookupTask_removeTask (l : List (Nat × Task)) (tid k : Nat) :
    lookupTask (removeTask l tid) k = if k = tid then none else lookupTask l k := by
  by_cases h : k = tid
  · subst h
    simp [lookupTask_removeTask_self]
  · simp [h, lookupTask_removeTask_ne _ _ _ h]

theorem inv_step {s s2 : Sys} (hinv : Inv s) (hstep : Step s s2) : Inv s2 := by
  obtain ⟨h1, h2, h3, h4, h5, h6⟩ := hinv
  cases hstep with
  | create tid vp now hfresh =>
      refine ⟨?_, ?_, ?_, ?_, ?_, ?_⟩
      · intro k t hk
        simp only [createTask, lookupTask_setTask] at hk
        split at hk
        · rename_i hkq
          subst hkq
          cases hk
          rfl
        · exact h1 k t hk
      · intro k t hk hp
        simp only [createTask, lookupTask_setTask] at hk
        split at hk
        · cases hk
          simp [TaskStatus.queued] at hp
        · exact h2 k t hk hp
      · intro k t hk
        simp only [createTask, lookupTask_setTask] at hk
        split at hk
        · subst k
          exact List.mem_cons_self _ _
        · exact List.mem_cons_of_mem _ (h3 k t hk)
      · intro k hk
        exact h4 k hk
      · intro k hk
        exact List.mem_cons_of_mem _ (h5 k hk)
      · intro k hk
        rcases h6 k hk with hb | ⟨hidle, hnone⟩
        · exact Or.inl hb
        · refine Or.inr ⟨hidle, ?_⟩
          simp only [createTask, lookupTask_setTask]
          have hkt : k ≠ tid := fun he => hfresh (he ▸ h5 k hk)
          simp [hkt, hnone]
  | claim now hidle =>
      rcases hq : s.tm.queue with _ | ⟨q0, qrest⟩
      · simp only [getNextTask, hq]
        refine ⟨h1, h2, h3, ?_, h5, ?_⟩
        · intro k hk
          simp at hk
        · intro k hk
          rcases h6 k hk with hb | ⟨_, hnone⟩
          · rw [hidle] at hb
            cases hb
          · exact Or.inr ⟨rfl, hnone⟩
      · rcases hcur : s.tm.current_task_id with _ | c
        · rcases hlk : lookupTask s.tm.tasks q0 with _ | t
          · simp only [getNextTask, hq, hcur, Option.isSome_none, Bool.false_eq_true,
              if_false, hlk]
            refine ⟨h1, ?_, h3, ?_, ?_, ?_⟩
            · intro k t2 hk hp
              have := h2 k t2 hk hp
              rw [hcur] at this
              cases this
            · intro k hk
              simp at hk
            · intro k hk
              simp at hk
            · intro k hk
              simp at hk
          · simp only [getNextTask, hq, hcur, Option.isSome_none, Bool.false_eq_true,
              if_false, hlk]
            have htid : t.task_id = q0 := h1 q0 t hlk
            refine ⟨?_, ?_, ?_, ?_, ?_, ?_⟩
            · intro k t2 hk
              simp only [lookupTask_setTask] at hk
              split at hk
              · rename_i hkq
                subst hkq
                cases hk
                simpa using htid
              · exact h1 k t2 hk
            · intro k t2 hk _
              simp only [lookupTask_setTask] at hk
              split at hk
              · subst k
                rfl
              · rename_i hkq
                exfalso
                have hc := h2 k t2 hk (by assumption)
                rw [hcur] at hc
                cases hc
            · intro k t2 hk
              simp only [lookupTask_setTask] at hk
              split at hk
              · subst k
                exact h3 q0 t hlk
              · exact h3 k t2 hk
            · intro k hk
              simp only [htid] at hk
              cases hk
              rfl
            · intro k hk
              cases hk
              exact h3 q0 t hlk
            · intro k hk
              cases hk
              left
              simp [htid]
        · simp only [getNextTask, hq, hcur, Option.isSome_some, if_true]
          refine ⟨h1, h2, h3, ?_, h5, ?_⟩
          · intro k hk
            simp at hk
          · intro k hk
            rcases h6 k hk with hb | ⟨_, hnone⟩
            · rw [hidle] at hb
              cases hb
            · exact Or.inr ⟨rfl, hnone⟩
  | complete tid fbx tr ex sm now hbusy =>
      have hcur : s.tm.current_task_id = some tid := h4 tid hbusy
      rcases hlk : lookupTask s.tm.tasks tid with _ | t
      · simp only [completeTask, hlk]
        refine ⟨h1, h2, h3, ?_, h5, ?_⟩
        · intro k hk
          simp at hk
        · intro k hk
          rcases h6 k hk with hb | ⟨hidle, hnone⟩
          · rw [hbusy] at hb
            cases hb
            exact Or.inr ⟨rfl, hlk⟩
          · exact Or.inr ⟨rfl, hnone⟩
      · simp only [completeTask, hlk]
        refine ⟨?_, ?_, ?_, ?_, ?_, ?_⟩
        · intro k t2 hk
          simp only [lookupTask_setTask] at hk
          split at hk
          · rename_i hkq
            subst hkq
            cases hk
            cases hst : t.started_at <;>
              simpa [hst] using h1 _ t hlk
          · exact h1 k t2 hk
        · intro k t2 hk hp
          simp only [lookupTask_setTask] at hk
          split at hk
          · exfalso
            cases hk
            cases hst : t.started_at <;> simp [hst] at hp
          · exfalso
            rename_i hkq
            have hc := h2 k t2 hk hp
            rw [hcur] at hc
            cases hc
            exact hkq rfl
        · intro k t2 hk
          simp only [lookupTask_setTask] at hk
          split at hk
          · subst k
            exact h3 tid t hlk
          · exact h3 k t2 hk
        · intro k hk
          simp at hk
        · intro k hk
          simp at hk
        · intro k hk
          simp at hk
  | fail tid msg code det now hbusy =>
      have hcur : s.tm.current_task_id = some tid := h4 tid hbusy
      rcases hlk : lookupTask s.tm.tasks tid with _ | t
      · simp only [failTask, hlk]
        refine ⟨h1, h2, h3, ?_, h5, ?_⟩
        · intro k hk
          simp at hk
        · intro k hk
          rcases h6 k hk with hb | ⟨hidle, hnone⟩
          · rw [hbusy] at hb
            cases hb
            exact Or.inr ⟨rfl, hlk⟩
          · exact Or.inr ⟨rfl, hnone⟩
      · simp only [failTask, hlk]
        refine ⟨?_, ?_, ?_, ?_, ?_, ?_⟩
        · intro k t2 hk
          simp only [lookupTask_setTask] at hk
          split at hk
          · rename_i hkq
            subst hkq
            cases hk
            cases hst : t.started_at <;>
              simpa [hst] using h1 _ t hlk
          · exact h1 k t2 hk
        · intro k t2 hk hp
          simp only [lookupTask_setTask] at hk
          split at hk
          · exfalso
            cases hk
            cases hst : t.started_at <;> simp [hst] at hp
          · exfalso
            rename_i hkq
            have hc := h2 k t2 hk hp
            rw [hcur] at hc
            cases hc
            exact hkq rfl
        · intro k t2 hk
          simp only [lookupTask_setTask] at hk
          split at hk
          · subst k
            exact h3 tid t hlk
          · exact h3 k t2 hk
        · intro k hk
          simp at hk
        · intro k hk
          simp at hk
        · intro k hk
          simp at hk
  | updateStep tid st p =>
      rcases hlk : lookupTask s.tm.tasks tid with _ | t
      · simpa only [updateTaskStep, hlk] using ⟨h1, h2, h3, h4, h5, h6⟩
      · simp only [updateTaskStep, hlk]
        refine ⟨?_, ?_, ?_, h4, h5, ?_⟩
        · intro k t2 hk
          simp only [lookupTask_setTask] at hk
          split at hk
          · rename_i hkq
            subst hkq
            cases hk
            simpa using h1 _ t hlk
          · exact h1 k t2 hk
        · intro k t2 hk hp
          simp only [lookupTask_setTask] at hk
          split at hk
          · subst k
            cases hk
            exact h2 tid t hlk (by simpa using hp)
          · exact h2 k t2 hk hp
        · intro k t2 hk
          simp only [lookupTask_setTask] at hk
          split at hk
          · subst k
            exact h3 tid t hlk
          · exact h3 k t2 hk
        · intro k hk
          rcases h6 k hk with hb | ⟨hidle, hnone⟩
          · exact Or.inl hb
          · refine Or.inr ⟨hidle, ?_⟩
            simp only [lookupTask_setTask]
            have hkt : k ≠ tid := by
              intro he
              rw [he, hlk] at hnone
              cases hnone
            simp [hkt, hnone]
  | delete tid keep =>
      rcases hlk : lookupTask s.tm.tasks tid with _ | t
      · simpa only [deleteTask, hlk] using ⟨h1, h2, h3, h4, h5, h6⟩
      · simp only [deleteTask, hlk]
        refine ⟨?_, ?_, ?_, h4, h5, ?_⟩
        · intro k t2 hk
          simp only [lookupTask_removeTask] at hk
          split at hk
          · cases hk
          · exact h1 k t2 hk
        · intro k t2 hk hp
          simp only [lookupTask_removeTask] at hk
          split at hk
          · cases hk
          · exact h2 k t2 hk hp
        · intro k t2 hk
          simp only [lookupTask_removeTask] at hk
          split at hk
          · cases hk
          · exact h3 k t2 hk
        · intro k hk
          rcases h6 k hk with hb | ⟨hidle, hnone⟩
          · exact Or.inl hb
          · refine Or.inr ⟨hidle, ?_⟩
            simp [lookupTask_removeTask, hnone]

theorem inv_reachable {s : Sys} (h : Reachable s) : Inv s := by
  obtain ⟨now, hgen⟩ := h
  induction hgen with
  | refl => exact inv_start now
  | tail _ hstep ih => exact inv_step ih hstep

/-! ### Helper facts and concrete scenario states -/

theorem getNextTask_of_current (m : TaskManager) (now : Int)
    (h : m.current_task_id.isSome = true) : getNextTask m now = (none, m) := by
  rcases hq : m.queue with _ | ⟨q0, rest⟩
  · simp [getNextTask, hq]
  · simp [getNextTask, hq, h]

/-- A start state followed by one `create_task` and one `get_next_task`:
task 1 is processing and current, the worker is busy on it. -/
def sys0 : Sys := Sys.start 0

def sys1 : Sys :=
  { tm := (createTask sys0.tm 1 "v.mp4" 0).2, worker := sys0.worker,
    used := 1 :: sys0.used }

def sys2 : Sys :=
  { tm := (getNextTask sys1.tm 5).2,
    worker := match (getNextTask sys1.tm 5).1 with
              | some t => WorkerState.busy t.task_id
              | none => WorkerState.idle,
    used := sys1.used }

theorem step01 : Step sys0 sys1 :=
  Step.create sys0 1 "v.mp4" 0 (by simp [sys0, Sys.start])

theorem step12 : Step sys1 sys2 := Step.claim sys1 5 rfl

theorem sys2_reachable : Reachable sys2 :=
  ⟨0, Relation.ReflTransGen.tail (Relation.ReflTransGen.single step01) step12⟩

/-- The record of task 1 in `sys2`. -/
def tsk1 : Task :=
  { task_id := 1, status := TaskStatus.processing, video_path := some "v.mp4",
    created_at := 0, started_at := some 5 }

theorem sys2_lookup : lookupTask sys2.tm.tasks 1 = some tsk1 := rfl

/-! ### C1 -/

/-- C1: in every reachable registry state at most one job has status
Processing (any two processing records share their key); `get_next_task`
returns `none` whenever a current job is set; and none of the other
operations (`create_task`, `update_task_step`, `complete_task`, `fail_task`,
`delete_task`) ever turns a record's status into Processing. -/
theorem c1_at_most_one_processing :
    (∀ s : Sys, Reachable s → ∀ tid1 tid2 t1 t2,
        lookupTask s.tm.tasks tid1 = some t1 →
        lookupTask s.tm.tasks tid2 = some t2 →
        t1.status = TaskStatus.processing → t2.status = TaskStatus.processing →
        tid1 = tid2) ∧
    (∀ (m : TaskManager) (now : Int),
        m.current_task_id.isSome = true → (getNextTask m now).1 = none) ∧
    (∀ (m : TaskManager) (tid : Nat) (vp : String) (now : Int) (k : Nat) (t2 : Task),
        lookupTask (createTask m tid vp now).2.tasks k = some t2 →
        t2.status = TaskStatus.processing →
        ∃ t0, lookupTask m.tasks k = some t0 ∧ t0.status = TaskStatus.processing) ∧
    (∀ (m : TaskManager) (tid : Nat) (st : String) (p : Nat) (k : Nat) (t2 : Task),
        lookupTask (updateTaskStep m tid st p).tasks k = some t2 →
        t2.status = TaskStatus.processing →
        ∃ t0, lookupTask m.tasks k = some t0 ∧ t0.status = TaskStatus.processing) ∧
    (∀ (m : TaskManager) (tid : Nat) (fbx : String) (tr ex sm : Option String)
        (now : Int) (k : Nat) (t2 : Task),
        lookupTask (completeTask m tid fbx tr ex sm now).tasks k = some t2 →
        t2.status = TaskStatus.processing →
        ∃ t0, lookupTask m.tasks k = some t0 ∧ t0.status = TaskStatus.processing) ∧
    (∀ (m : TaskManager) (tid : Nat) (msg code : String) (det : Option String)
        (now : Int) (k : Nat) (t2 : Task),
        lookupTask (failTask m tid msg code det now).tasks k = some t2 →
        t2.status = TaskStatus.processing →
        ∃ t0, lookupTask m.tasks k = some t0 ∧ t0.status = TaskStatus.processing) ∧
    (∀ (m : TaskManager) (tid : Nat) (keep : Bool) (k : Nat) (t2 : Task),
        lookupTask (deleteTask m tid keep).2.2.tasks k = some t2 →
        t2.status = TaskStatus.processing →
        ∃ t0, lookupTask m.tasks k = some t0 ∧ t0.status = TaskStatus.processing) := by
  refine ⟨?_, ?_, ?_, ?_, ?_, ?_, ?_⟩
  · intro s hreach tid1 tid2 t1 t2 hl1 hl2 hp1 hp2
    obtain ⟨_, h2, _, _, _, _⟩ := inv_reachable hreach
    have e1 := h2 tid1 t1 hl1 hp1
    have e2 := h2 tid2 t2 hl2 hp2
    rw [e1] at e2
    exact Option.some_inj.mp e2
  · intro m now h
    exact congrArg Prod.fst (getNextTask_of_current m now h)
  · intro m tid vp now k t2 hk hp
    simp only [createTask, lookupTask_setTask] at hk
    split at hk
    · exfalso
      cases hk
      simp at hp
    · exact ⟨t2, hk, hp⟩
  · intro m tid st p k t2 hk hp
    rcases hlk2 : lookupTask m.tasks tid with _ | t
    · simp only [updateTaskStep, hlk2] at hk
      exact ⟨t2, hk, hp⟩
    · simp only [updateTaskStep, hlk2, lookupTask_setTask] at hk
      split at hk
      · rename_i hkq
        subst hkq
        cases hk
        exact ⟨t, hlk2, by simpa using hp⟩
      · exact ⟨t2, hk, hp⟩
  · intro m tid fbx tr ex sm now k t2 hk hp
    rcases hlk2 : lookupTask m.tasks tid with _ | t
    · simp only [completeTask, hlk2] at hk
      exact ⟨t2, hk, hp⟩
    · simp only [completeTask, hlk2, lookupTask_setTask] at hk
      split at hk
      · exfalso
        cases hk
        cases hst : t.started_at <;> simp [hst] at hp
      · exact ⟨t2, hk, hp⟩
  · intro m tid msg code det now k t2 hk hp
    rcases hlk2 : lookupTask m.tasks tid with _ | t
    · simp only [failTask, hlk2] at hk
      exact ⟨t2, hk, hp⟩
    · simp only [failTask, hlk2, lookupTask_setTask] at hk
      split at hk
      · exfalso
        cases hk
        cases hst : t.started_at <;> simp [hst] at hp
      · exact ⟨t2, hk, hp⟩
  · intro m tid keep k t2 hk hp
    rcases hlk2 : lookupTask m.tasks tid with _ | t
    · simp only [deleteTask, hlk2] at hk
      exact ⟨t2, hk, hp⟩
    · simp only [deleteTask, hlk2, lookupTask_removeTask] at hk
      split at hk
      · cases hk
      · exact ⟨t2, hk, hp⟩

/-- Witness for C1 at the concrete reachable state `sys2`. -/
theorem c1_witness : (1 : Nat) = 1 :=
  c1_at_most_one_processing.1 sys2 sys2_reachable 1 1 tsk1 tsk1
    sys2_lookup sys2_lookup rfl rfl

/-! ### C2 -/

/-- C2 counterexample: in the reachable state `sys2` task 1 occupies the
current slot; `delete_task 1` returns `true`, yet the current-slot
bookkeeping still holds id 1 afterwards, refuting removal from the
current-slot bookkeeping. -/
theorem c2_counterexample :
    sys2.tm.current_task_id = some 1 ∧
    (deleteTask sys2.tm 1 false).1 = true ∧
    ¬ (deleteTask sys2.tm 1 false).2.2.current_task_id = none := by
  refine ⟨rfl, rfl, ?_⟩
  intro h
  simp [deleteTask, sys2, sys1, sys0, Sys.start, TaskManager.mkInit, createTask,
    getNextTask, lookupTask, setTask] at h

/-- C2 (amended): for a known id, `delete_task` returns `true`, hands exactly
the collected file paths (only video and final output when
`keep_intermediate`) to the File Handler, removes the id from the wait
queue, removes the record (leaving other records intact) and preserves the
counters — but it leaves the current-slot field untouched; for an unknown id
it returns `false` and changes nothing. -/
theorem c2_delete_task_contract :
    ∀ (m : TaskManager) (tid : Nat) (keep : Bool),
      (lookupTask m.tasks tid = none → deleteTask m tid keep = (false, [], m)) ∧
      (∀ t, lookupTask m.tasks tid = some t →
        (deleteTask m tid keep).1 = true ∧
        (deleteTask m tid keep).2.1 = deleteRequests t keep ∧
        (keep = true →
          (deleteTask m tid keep).2.1 =
            [t.video_path, t.fbx_path].filterMap (fun x => x)) ∧
        (deleteTask m tid keep).2.2.queue = removeFirstId m.queue tid ∧
        lookupTask (deleteTask m tid keep).2.2.tasks tid = none ∧
        (∀ k, k ≠ tid →
          lookupTask (deleteTask m tid keep).2.2.tasks k = lookupTask m.tasks k) ∧
        (deleteTask m tid keep).2.2.current_task_id = m.current_task_id ∧
        (deleteTask m tid keep).2.2.total_tasks = m.total_tasks ∧
        (deleteTask m tid keep).2.2.completed_tasks = m.completed_tasks ∧
        (deleteTask m tid keep).2.2.failed_tasks = m.failed_tasks) := by
  intro m tid keep
  constructor
  · intro h
    simp [deleteTask, h]
  · intro t hlk
    refine ⟨?_, ?_, ?_, ?_, ?_, ?_, ?_, ?_, ?_, ?_⟩ <;>
      simp only [deleteTask, hlk]
    · intro hkeep
      subst hkeep
      simp [deleteRequests]
    · exact lookupTask_removeTask_self _ _
    · intro k hkne
      exact lookupTask_removeTask_ne _ _ _ hkne

/-- Witness for C2 (amended) at `sys2` with `keep_intermediate = true`. -/
theorem c2_witness :
    (deleteTask sys2.tm 1 true).1 = true ∧
    (deleteTask sys2.tm 1 true).2.1 = ["v.mp4"] ∧
    lookupTask (deleteTask sys2.tm 1 true).2.2.tasks 1 = none := by
  have h := (c2_delete_task_contract sys2.tm 1 true).2 tsk1 sys2_lookup
  exact ⟨h.1, h.2.1.trans rfl, h.2.2.2.2.1⟩

/-! ### C4 -/

/-- The wedged situation after the current processing job was deleted: the
slot still names `d`, the record is gone, `d` was a real uuid, and the
worker is idle or still finishing `d`. -/
def Stuck (d : Nat) (s : Sys) : Prop :=
  s.tm.current_task_id = some d ∧
  lookupTask s.tm.tasks d = none ∧
  d ∈ s.used ∧
  (s.worker = WorkerState.idle ∨ s.worker = WorkerState.busy d)

theorem stuck_step {d : Nat} {s s2 : Sys} (hst : Stuck d s) (h : Step s s2) :
    Stuck d s2 := by
  obtain ⟨hcur, hnone, hused, hw⟩ := hst
  cases h with
  | create tid vp now hfresh =>
      have hne : d ≠ tid := fun he => hfresh (he ▸ hused)
      exact ⟨by simpa [createTask] using hcur,
             by simp [createTask, lookupTask_setTask, hne, hnone],
             List.mem_cons_of_mem _ hused, hw⟩
  | claim now hidle =>
      have hg : getNextTask s.tm now = (none, s.tm) :=
        getNextTask_of_current _ _ (by simp [hcur])
      exact ⟨by simpa [hg] using hcur, by simpa [hg] using hnone, hused,
             by simp [hg]⟩
  | complete tid fbx tr ex sm now hbusy =>
      rcases hw with hidle | hbd
      · rw [hidle] at hbusy
        cases hbusy
      · rw [hbd] at hbusy
        cases hbusy
        exact ⟨by simpa [completeTask, hnone] using hcur,
               by simp [completeTask, hnone], hused, Or.inl rfl⟩
  | fail tid msg code det now hbusy =>
      rcases hw with hidle | hbd
      · rw [hidle] at hbusy
        cases hbusy
      · rw [hbd] at hbusy
        cases hbusy
        exact ⟨by simpa [failTask, hnone] using hcur,
               by simp [failTask, hnone], hused, Or.inl rfl⟩
  | updateStep tid st2 p =>
      rcases hlk2 : lookupTask s.tm.tasks tid with _ | t
      · exact ⟨by simpa [updateTaskStep, hlk2] using hcur,
               by simpa [updateTaskStep, hlk2] using hnone, hused, hw⟩
      · have hne : d ≠ tid := by
          intro he
          rw [he, hlk2] at hnone
          cases hnone
        exact ⟨by simpa [updateTaskStep, hlk2] using hcur,
               by simp [updateTaskStep, hlk2, lookupTask_setTask, hne, hnone],
               hused, hw⟩
  | delete tid keep =>
      rcases hlk2 : lookupTask s.tm.tasks tid with _ | t
      · exact ⟨by simpa [deleteTask, hlk2] using hcur,
               by simpa [deleteTask, hlk2] using hnone, hused, hw⟩
      · exact ⟨by simpa [deleteTask, hlk2] using hcur,
               by simp [deleteTask, hlk2, lookupTask_removeTask, hnone], hused, hw⟩

/-- C4: deleting the id currently held in the Processing slot succeeds and
removes the record, but leaves the slot naming the deleted id; in every
subsequently reachable state the slot still names it, `complete_task` and
`fail_task` on that id are exact no-ops, and `get_next_task` returns
`none`, so no queued job is ever claimed again. -/
theorem c4_delete_processing_wedges :
    ∀ (s : Sys) (d : Nat) (t : Task) (keep : Bool),
      Reachable s →
      s.tm.current_task_id = some d →
      lookupTask s.tm.tasks d = some t →
      t.status = TaskStatus.processing →
      (deleteTask s.tm d keep).1 = true ∧
      lookupTask (deleteTask s.tm d keep).2.2.tasks d = none ∧
      (deleteTask s.tm d keep).2.2.current_task_id = some d ∧
      (∀ s2, Relation.ReflTransGen Step { s with tm := (deleteTask s.tm d keep).2.2 } s2 →
          s2.tm.current_task_id = some d ∧
          lookupTask s2.tm.tasks d = none ∧
          (∀ now, (getNextTask s2.tm now).1 = none) ∧
          (∀ fbx tr ex sm now, completeTask s2.tm d fbx tr ex sm now = s2.tm) ∧
          (∀ msg code det now, failTask s2.tm d msg code det now = s2.tm)) := by
  intro s d t keep hreach hcur hlk hproc
  obtain ⟨h1, h2, h3, h4, h5, h6⟩ := inv_reachable hreach
  have hworker : s.worker = WorkerState.busy d := by
    rcases h6 d hcur with hb | ⟨_, hnone⟩
    · exact hb
    · rw [hlk] at hnone
      cases hnone
  have hused : d ∈ s.used := h5 d hcur
  refine ⟨by simp [deleteTask, hlk], by simp [deleteTask, hlk, lookupTask_removeTask_self],
          by simpa [deleteTask, hlk] using hcur, ?_⟩
  intro s2 hgen
  have hstuck0 : Stuck d { s with tm := (deleteTask s.tm d keep).2.2 } :=
    ⟨by simpa [deleteTask, hlk] using hcur,
     by simp [deleteTask, hlk, lookupTask_removeTask_self],
     hused, Or.inr hworker⟩
  have hstuck : Stuck d s2 := by
    induction hgen with
    | refl => exact hstuck0
    | tail _ hstep ih => exact stuck_step ih hstep
  obtain ⟨hc2, hn2, _, _⟩ := hstuck
  refine ⟨hc2, hn2, ?_, ?_, ?_⟩
  · intro now
    exact congrArg Prod.fst (getNextTask_of_current _ now (by simp [hc2]))
  · intro fbx tr ex sm now
    simp [completeTask, hn2]
  · intro msg code det now
    simp [failTask, hn2]

/-- Witness for C4 at `sys2` (task 1 processing and current). -/
theorem c4_witness :
    (deleteTask sys2.tm 1 false).1 = true ∧
    (deleteTask sys2.tm 1 false).2.2.current_task_id = some 1 ∧
    lookupTask (deleteTask sys2.tm 1 false).2.2.tasks 1 = none := by
  have h := c4_delete_processing_wedges sys2 1 tsk1 false sys2_reachable rfl
    sys2_lookup rfl
  exact ⟨h.1, h.2.2.1, h.2.1⟩

/-! ### C5 -/

/-- C5: for a record that exists and is Processing (with its started
timestamp set), `complete_task` marks it Completed with progress forced to
100, a duration computed from started to now, clears the current slot and
bumps the completed counter; under the same precondition `fail_task` marks
it Failed with the duration, clears the slot and bumps the failed counter. -/
theorem c5_complete_fail_contract :
    ∀ (m : TaskManager) (tid : Nat) (t : Task) (st now : Int) (fbx : String)
      (tr ex sm : Option String) (msg code : String) (det : Option String),
      lookupTask m.tasks tid = some t →
      t.status = TaskStatus.processing →
      t.started_at = some st →
      (∃ t2, lookupTask (completeTask m tid fbx tr ex sm now).tasks tid = some t2 ∧
        t2.status = TaskStatus.completed ∧ t2.progress = 100 ∧
        t2.processing_time = some (now - st) ∧ t2.completed_at = some now ∧
        t2.fbx_path = some fbx) ∧
      (completeTask m tid fbx tr ex sm now).current_task_id = none ∧
      (completeTask m tid fbx tr ex sm now).completed_tasks = m.completed_tasks + 1 ∧
      (completeTask m tid fbx tr ex sm now).failed_tasks = m.failed_tasks ∧
      (∃ t3, lookupTask (failTask m tid msg code det now).tasks tid = some t3 ∧
        t3.status = TaskStatus.failed ∧
        t3.processing_time = some (now - st) ∧
        t3.error_message = some msg ∧ t3.error_code = some code) ∧
      (failTask m tid msg code det now).current_task_id = none ∧
      (failTask m tid msg code det now).failed_tasks = m.failed_tasks + 1 ∧
      (failTask m tid msg code det now).completed_tasks = m.completed_tasks := by
  intro m tid t st now fbx tr ex sm msg code det hlk hproc hst
  simp only [completeTask, failTask, hlk, hst]
  refine ⟨⟨_, lookupTask_setTask_self _ _ _, ?_, ?_, ?_, ?_, ?_⟩, ?_, ?_, ?_,
          ⟨_, lookupTask_setTask_self _ _ _, ?_, ?_, ?_, ?_⟩, ?_, ?_, ?_⟩ <;>
    trivial

/-- Witness for C5 at `sys2` (task 1 processing, started at 5). -/
theorem c5_witness :
    (completeTask sys2.tm 1 "a.fbx" none none none 20).current_task_id = none ∧
    (failTask sys2.tm 1 "boom" "INTERNAL_ERROR" none 20).current_task_id = none := by
  have h := c5_complete_fail_contract sys2.tm 1 tsk1 5 20 "a.fbx" none none none
    "boom" "INTERNAL_ERROR" none sys2_lookup rfl rfl
  exact ⟨h.2.1, h.2.2.2.2.2.1⟩

/-! ### C10 -/

/-- A scenario: three tasks created, claimed and completed in order, with
durations 10, 40 and 0 seconds. -/
def mT0 : TaskManager := TaskManager.mkInit 0

def mT1 : TaskManager := (createTask mT0 1 "v1.mp4" 0).2

def mT2 : TaskManager := (createTask mT1 2 "v2.mp4" 0).2

def mT3 : TaskManager := (createTask mT2 3 "v3.mp4" 0).2

def mT4 : TaskManager := (getNextTask mT3 10).2

def mT5 : TaskManager := completeTask mT4 1 "a.fbx" none none none 20

def mT6 : TaskManager := (getNextTask mT5 30).2

def mT7 : TaskManager := completeTask mT6 2 "b.fbx" none none none 70

def mT8 : TaskManager := (getNextTask mT7 100).2

def mT9 : TaskManager := completeTask mT8 3 "c.fbx" none none none 100

/-- C10: `get_stats` averages only over Completed records still present with
a truthy (nonzero) duration, while the total/completed/failed counters and
the success rate survive any `delete_task`; concretely, with completed
durations 10, 40 and 0, the average is 25 (the zero-duration job is
excluded), and deleting the duration-10 job moves the average to 40 while
every counter keeps counting the deleted job. -/
theorem c10_stats_average_vs_counters :
    (∀ (m : TaskManager) (tid : Nat) (t : Task) (keep : Bool) (now : Int),
      lookupTask m.tasks tid = some t →
      (getStats (deleteTask m tid keep).2.2 now).total_tasks = (getStats m now).total_tasks ∧
      (getStats (deleteTask m tid keep).2.2 now).completed_tasks = (getStats m now).completed_tasks ∧
      (getStats (deleteTask m tid keep).2.2 now).failed_tasks = (getStats m now).failed_tasks ∧
      (getStats (deleteTask m tid keep).2.2 now).success_rate = (getStats m now).success_rate) ∧
    (getStats mT9 200).average_processing_time = 25 ∧
    (getStats (deleteTask mT9 1 false).2.2 200).average_processing_time = 40 ∧
    (getStats (deleteTask mT9 1 false).2.2 200).completed_tasks = 3 ∧
    (getStats (deleteTask mT9 1 false).2.2 200).total_tasks = 3 ∧
    (getStats (deleteTask mT9 1 false).2.2 200).failed_tasks = 0 ∧
    lookupTask (deleteTask mT9 1 false).2.2.tasks 1 = none := by
  refine ⟨?_, ?_, ?_, by decide, by decide, by decide, by decide⟩
  · intro m tid t keep now hlk
    simp [deleteTask, hlk, getStats]
  · have hl : (completedWithTime mT9).map
        (fun p => ((p.2.processing_time.getD 0 : Int) : Rat)) = [10, 40] := by decide
    have hn : (completedWithTime mT9).length = 2 := by decide
    simp only [getStats, hn, hl]
    norm_num
  · have hl : (completedWithTime (deleteTask mT9 1 false).2.2).map
        (fun p => ((p.2.processing_time.getD 0 : Int) : Rat)) = [40] := by decide
    have hn : (completedWithTime (deleteTask mT9 1 false).2.2).length = 1 := by decide
    simp only [getStats, hn, hl]
    norm_num

/-- Witness for C10's universally quantified part at the concrete state. -/
theorem c10_witness :
    (getStats (deleteTask mT9 1 false).2.2 0).completed_tasks =
      (getStats mT9 0).completed_tasks := by
  have h := c10_stats_average_vs_counters.1 mT9 1 _ false 0 rfl
  exact h.2.1

/-! ### The pipeline executor and process invoker (`src/api/services/pipeline.py`)

External effects are an oracle of pure functions (`PipeEnv`); repeated
filesystem queries about the same path therefore agree, which subsumes the
code's repeated TOCTOU existence checks.  Every operation also returns the
ordered list of effect `Event`s it performed.  Wall-clock stage durations
are taken from the command outcome; the driver's `total_duration`
(wall-clock elapsed) is not modelled. -/

/-- String constants from `ProcessStep` in `src/api/constants.py`. -/
def ProcessStep.TRACKING : String := "tracking"

def ProcessStep.TRACK_EXTRACTION : String := "track_extraction"

def ProcessStep.SMOOTHING : String := "smoothing"

def ProcessStep.FBX_EXPORT : String := "fbx_export"

/-- String constants from `ErrorCode` in `src/api/constants.py`. -/
def ErrorCode.INTERNAL_ERROR : String := "INTERNAL_ERROR"

def ErrorCode.INVALID_REQUEST : String := "INVALID_REQUEST"

def ErrorCode.TASK_TIMEOUT : String := "TASK_TIMEOUT"

def ErrorCode.TRACKING_FAILED : String := "TRACKING_FAILED"

def ErrorCode.TRACK_EXTRACTION_FAILED : String := "TRACK_EXTRACTION_FAILED"

def ErrorCode.NO_TRACKS_FOUND : String := "NO_TRACKS_FOUND"

def ErrorCode.SMOOTHING_FAILED : String := "SMOOTHING_FAILED"

def ErrorCode.FBX_EXPORT_FAILED : String := "FBX_EXPORT_FAILED"

def ErrorCode.GPU_OUT_OF_MEMORY : String := "GPU_OUT_OF_MEMORY"

def ErrorCode.DISK_FULL : String := "DISK_FULL"

/-- The configuration values from `src/api/config.py` that the pipeline
reads (directories as plain path strings, timeouts in seconds).  Note that
`config.py` defines no `PROCESS_KILL_TIMEOUT`: the read of
`settings.PROCESS_KILL_TIMEOUT` at `pipeline.py:139` would itself raise
`AttributeError`, but that line is unreachable (see `runCommand`). -/
structure Settings where
  PROJECT_ROOT : String
  UPLOAD_DIR : String
  OUTPUT_DIR : String
  TEMP_DIR : String
  RESULT_DIR : String
  BLENDER_PATH : String
  PYTHON : String
  SMOOTHNET_CHECKPOINT : String
  TRACKING_TIMEOUT : Nat
  EXTRACTION_TIMEOUT : Nat
  SMOOTHING_TIMEOUT : Nat
  FBX_EXPORT_TIMEOUT : Nat
deriving DecidableEq, Repr

/-- Outcome of one `subprocess.run` call, as far as `_run_command` can
observe it: normal completion, `TimeoutExpired`, `OSError`, `ValueError`,
or any other exception. -/
inductive CmdOutcome where
  | completed (returncode : Int) (stdout stderr : String) (duration : Nat)
  | timedOut (duration : Nat)
  | osError (msg : String) (duration : Nat)
  | valueError (msg : String) (duration : Nat)
  | otherError (msg : String) (duration : Nat)
deriving DecidableEq, Repr

/-- Python exceptions that escape the embedded code uncaught.
`attributeError` is raised by `e.process` at `pipeline.py:134`:
`subprocess.TimeoutExpired` has no `process` attribute. -/
inductive PyExc where
  | attributeError
deriving DecidableEq, Repr

/-- The `PipelineResult` class from `pipeline.py`. -/
structure PipelineResult where
  success : Bool
  output_path : Option String := none
  error : Option String := none
  error_code : Option String := none
  logs : String := ""
  duration : Nat := 0
deriving DecidableEq, Repr

/-- Observable effects, in order: external command invocation, the forced
`kill()` of a timed-out process (emitted by `pipeline.py:138`, which is in
fact unreachable — kept so that its absence can be stated), a file-deletion
attempt, and a progress-callback report. -/
inductive Event where
  | invoke (cmd : List String)
  | killAttempt
  | deleteFile (path : String)
  | progress (n : Nat)
deriving DecidableEq, Repr

/-- Oracle for all external effects of the pipeline. -/
structure PipeEnv where
  runCmd : List String → CmdOutcome
  fileExists : String → Bool
  loadTracking : String → Option (List (Option (List Int)))
  moveOk : String → String → Bool
  deleteOk : String → Bool
  validPath : String → Bool

/-- Whether `pat` occurs as a contiguous run inside `hay`. -/
def strContainsAux (pat : List Char) : List Char → Bool
  | [] => pat.isEmpty
  | c :: rest => pat.isPrefixOf (c :: rest) || strContainsAux pat rest

/-- Python's `pat in s` substring test. -/
def containsSub (s pat : String) : Bool :=
  strContainsAux pat.data s.data

/-- Python's `str.lower()` on the ASCII strings the pipeline compares. -/
def lowerStr (s : String) : String :=
  String.mk (s.data.map Char.toLower)

/-- `FourDHumansPipeline._infer_error_code`. -/
def inferErrorCode (step_name error_msg : String) : String :=
  let error_lower := lowerStr error_msg
  if containsSub error_lower "cuda out of memory" || containsSub error_lower "out of memory" then
    ErrorCode.GPU_OUT_OF_MEMORY
  else if containsSub error_lower "no space left" || containsSub error_lower "disk full" then
    ErrorCode.DISK_FULL
  else if step_name = ProcessStep.TRACKING then
    ErrorCode.TRACKING_FAILED
  else if step_name = ProcessStep.TRACK_EXTRACTION then
    ErrorCode.TRACK_EXTRACTION_FAILED
  else if step_name = ProcessStep.SMOOTHING then
    ErrorCode.SMOOTHING_FAILED
  else if step_name = ProcessStep.FBX_EXPORT then
    ErrorCode.FBX_EXPORT_FAILED
  else
    ErrorCode.INTERNAL_ERROR

/-- `FourDHumansPipeline._run_command`: a completed run with non-zero exit
is a failure with an inferred code; `OSError` is split into disk-full
versus internal by message sniffing; `ValueError` maps to invalid request;
anything else caught by the final handler maps to internal error.  On
`TimeoutExpired`, however, the handler evaluates `e.process`
(`pipeline.py:134`) outside any try block — `subprocess.TimeoutExpired` has
no `process` attribute, so every timeout raises `AttributeError`: the
`kill()`, the bounded `wait()` and the `TASK_TIMEOUT` result below them are
unreachable, and `_run_command` raises instead of returning. -/
def runCommand (cfg : Settings) (env : PipeEnv) (cmd : List String)
    (timeout : Nat) (step_name : String) :
    Except PyExc PipelineResult × List Event :=
  match env.runCmd cmd with
  | CmdOutcome.completed rc out errS dur =>
      if rc ≠ 0 then
        (Except.ok
          { success := false, error := some errS,
            error_code := some (inferErrorCode step_name errS),
            logs := out ++ "\n" ++ errS, duration := dur }, [Event.invoke cmd])
      else
        (Except.ok { success := true, logs := out, duration := dur }, [Event.invoke cmd])
  | CmdOutcome.timedOut _ =>
      (Except.error PyExc.attributeError, [Event.invoke cmd])
  | CmdOutcome.osError msg dur =>
      (Except.ok
        { success := false, error := some msg,
          error_code := some
            (if containsSub (lowerStr msg) "space" || containsSub (lowerStr msg) "disk"
             then ErrorCode.DISK_FULL else ErrorCode.INTERNAL_ERROR),
          duration := dur }, [Event.invoke cmd])
  | CmdOutcome.valueError msg dur =>
      (Except.ok
        { success := false, error := some msg,
          error_code := some ErrorCode.INVALID_REQUEST, duration := dur },
       [Event.invoke cmd])
  | CmdOutcome.otherError msg dur =>
      (Except.ok
        { success := false, error := some msg,
          error_code := some ErrorCode.INTERNAL_ERROR, duration := dur },
       [Event.invoke cmd])

/-- `pathlib`'s `/` on path strings. -/
def joinPath (a b : String) : String := a ++ "/" ++ b

/-- `pathlib.Path(p).stem`: last component without its final suffix. -/
def pathStem (p : String) : String :=
  let base := (p.splitOn "/").getLastD ""
  let parts := base.splitOn "."
  if parts.length ≤ 1 then base else String.intercalate "." parts.dropLast

/-- `pathlib.Path(p).parent` of a relative-style path string. -/
def pathParent (p : String) : String :=
  String.intercalate "/" (p.splitOn "/").dropLast

/-! #### Tracking stage (`run_tracking`) -/

def trackingCmd (cfg : Settings) (video_path : String) : List String :=
  [cfg.PYTHON, joinPath cfg.PROJECT_ROOT "track.py",
   "video.source=" ++ video_path, "video.output_dir=" ++ cfg.OUTPUT_DIR]

/-- PHALP's own output path `outputs/results/demo_<video stem>.pkl`. -/
def phalpOutputPkl (cfg : Settings) (video_path : String) : String :=
  joinPath (joinPath cfg.OUTPUT_DIR "results") ("demo_" ++ pathStem video_path ++ ".pkl")

/-- The task-scoped canonical path `outputs/results/<task_id>.pkl`. -/
def canonicalPkl (cfg : Settings) (task_id : String) : String :=
  joinPath (joinPath cfg.OUTPUT_DIR "results") (task_id ++ ".pkl")

/-- `FourDHumansPipeline.run_tracking`: validates the video path against the
upload directory, runs the tool, verifies PHALP's output file, renames it to
the canonical task-scoped path (falling back to the original on a rename
failure, which is only logged), and re-verifies the final path.  An
exception escaping `_run_command` propagates (the stage has no handler
around that call). -/
def runTracking (cfg : Settings) (env : PipeEnv) (video_path task_id : String) :
    Except PyExc PipelineResult × List Event :=
  let ev0 : List Event := [Event.progress 10]
  if !env.validPath video_path then
    (Except.ok
      { success := false, error := some ("Invalid video path: " ++ video_path),
        error_code := some ErrorCode.INVALID_REQUEST, duration := 0 }, ev0)
  else
    let phalp := phalpOutputPkl cfg video_path
    let canon := canonicalPkl cfg task_id
    let rcev := runCommand cfg env (trackingCmd cfg video_path)
      cfg.TRACKING_TIMEOUT ProcessStep.TRACKING
    match rcev.1 with
    | Except.error e => (Except.error e, ev0 ++ rcev.2)
    | Except.ok result =>
      if result.success then
        if env.fileExists phalp then
          let output_pkl := if env.moveOk phalp canon then canon else phalp
          if env.fileExists output_pkl then
            (Except.ok { result with output_path := some output_pkl },
             ev0 ++ rcev.2 ++ [Event.progress 30])
          else
            let result2 := { result with
              success := false,
              error := some ("Output file not found: " ++ output_pkl),
              error_code := some ErrorCode.TRACKING_FAILED }
            (Except.ok result2, ev0 ++ rcev.2)
        else
          let result2 := { result with
            success := false,
            error := some ("Tracking output file not found: " ++ phalp),
            error_code := some ErrorCode.TRACKING_FAILED }
          (Except.ok result2, ev0 ++ rcev.2)
      else (Except.ok result, ev0 ++ rcev.2)

/-! #### Auto subject selection (`_get_longest_track_id`)

The parsed tracking output is a sequence of frames (the dict's values in
insertion order); a frame either lacks the `tid` key (`none`) or carries a
list of subject ids. -/

/-- `track_counts[tid] = track_counts.get(tid, 0) + 1` on an
insertion-ordered counts dict. -/
def bumpCount : List (Int × Nat) → Int → List (Int × Nat)
  | [], tid => [(tid, 1)]
  | (k, c) :: rest, tid =>
      if k = tid then (k, c + 1) :: rest else (k, c) :: bumpCount rest tid

/-- The per-subject frame-occurrence counts, keys in first-encounter order. -/
def trackCounts (data : List (Option (List Int))) : List (Int × Nat) :=
  data.foldl (fun acc fr =>
    match fr with
    | none => acc
    | some tids => tids.foldl bumpCount acc) []

/-- Python's `max(track_counts, key=track_counts.get)`: the first key (in
dict order) attaining the maximal value. -/
def maxKeyByValue : List (Int × Nat) → Option Int
  | [] => none
  | (k, v) :: rest =>
      some ((rest.foldl (fun best q => if q.2 > best.2 then q else best) (k, v)).1)

/-- `FourDHumansPipeline._get_longest_track_id` on parsed data (`None` on
empty data or when no frame carries subjects). -/
def getLongestTrackId (data : List (Option (List Int))) : Option Int :=
  if data.isEmpty then none
  else
    let tc := trackCounts data
    if tc.isEmpty then none else maxKeyByValue tc

/-- `_get_longest_track_id` including the `joblib.load` step; a load failure
(any of the caught exceptions) also yields `None`. -/
def getLongestTrackIdFromFile (env : PipeEnv) (tracking_pkl : String) : Option Int :=
  match env.loadTracking tracking_pkl with
  | none => none
  | some data => getLongestTrackId data

/-! #### Extraction stage (`run_extraction`) -/

def extractionCmd (cfg : Settings) (tracking_pkl out_npz tidArg : String) : List String :=
  [cfg.PYTHON, joinPath (joinPath cfg.PROJECT_ROOT "tools") "extract_track_for_tid.py",
   "--pkl", tracking_pkl, "--out", out_npz, "--tid", tidArg]

def extractedNpzPath (cfg : Settings) (task_id : String) (tid : Int) : String :=
  joinPath cfg.TEMP_DIR (task_id ++ "_tid" ++ toString tid ++ "_extracted.npz")

/-- The subject selector actually used: the explicit one, else the
auto-selected longest track. -/
def resolveTid (env : PipeEnv) (tracking_pkl : String) (track_id : Option Int) :
    Option Int :=
  match track_id with
  | some t => some t
  | none => getLongestTrackIdFromFile env tracking_pkl

/-- `FourDHumansPipeline.run_extraction`: when no subject selector is given,
auto-select the longest track; fail with `NO_TRACKS_FOUND` (without running
the tool) when none is found; otherwise run the tool and verify its
output. -/
def runExtraction (cfg : Settings) (env : PipeEnv) (tracking_pkl task_id : String)
    (track_id : Option Int) : Except PyExc PipelineResult × List Event :=
  let ev0 : List Event := [Event.progress 35]
  match resolveTid env tracking_pkl track_id with
  | none =>
      (Except.ok
        { success := false, error := some "No tracks found in tracking result",
          error_code := some ErrorCode.NO_TRACKS_FOUND }, ev0)
  | some tid =>
      let output_npz := extractedNpzPath cfg task_id tid
      let rcev := runCommand cfg env (extractionCmd cfg tracking_pkl output_npz (toString tid))
        cfg.EXTRACTION_TIMEOUT ProcessStep.TRACK_EXTRACTION
      match rcev.1 with
      | Except.error e => (Except.error e, ev0 ++ rcev.2)
      | Except.ok result =>
        if result.success then
          if env.fileExists output_npz then
            (Except.ok { result with output_path := some output_npz },
             ev0 ++ rcev.2 ++ [Event.progress 45])
          else
            let result2 := { result with
              success := false,
              error := some ("Extraction output file not found: " ++ output_npz),
              error_code := some ErrorCode.TRACK_EXTRACTION_FAILED }
            (Except.ok result2, ev0 ++ rcev.2)
        else (Except.ok result, ev0 ++ rcev.2)

/-! #### Smoothing stage (`run_smoothing`); the three tuning parameters are
passed through unchanged as command-line text -/

def smoothingCmd (cfg : Settings) (extracted_npz out_npz win ema strength : String) :
    List String :=
  [cfg.PYTHON, joinPath (joinPath cfg.PROJECT_ROOT "tools") "adapt_smoothnet.py",
   "--npz", extracted_npz, "--out", out_npz,
   "--ckpt", joinPath cfg.PROJECT_ROOT cfg.SMOOTHNET_CHECKPOINT,
   "--win", win, "--ema", ema, "--strength", strength]

def smoothedNpzPath (cfg : Settings) (task_id : String) : String :=
  joinPath cfg.TEMP_DIR (task_id ++ "_smoothed.npz")

def runSmoothing (cfg : Settings) (env : PipeEnv) (extracted_npz task_id : String)
    (strength window ema : String) : Except PyExc PipelineResult × List Event :=
  let ev0 : List Event := [Event.progress 50]
  let output_npz := smoothedNpzPath cfg task_id
  let rcev := runCommand cfg env (smoothingCmd cfg extracted_npz output_npz window ema strength)
    cfg.SMOOTHING_TIMEOUT ProcessStep.SMOOTHING
  match rcev.1 with
  | Except.error e => (Except.error e, ev0 ++ rcev.2)
  | Except.ok result =>
    if result.success then
      if env.fileExists output_npz then
        (Except.ok { result with output_path := some output_npz },
         ev0 ++ rcev.2 ++ [Event.progress 70])
      else
        let result2 := { result with
          success := false,
          error := some ("Smoothing output file not found: " ++ output_npz),
          error_code := some ErrorCode.SMOOTHING_FAILED }
        (Except.ok result2, ev0 ++ rcev.2)
    else (Except.ok result, ev0 ++ rcev.2)

/-! #### Export stage (`run_fbx_export` and `_remove_mesh_from_fbx`) -/

def fbxPath (cfg : Settings) (task_id : String) (with_root_motion : Bool) : String :=
  joinPath cfg.RESULT_DIR
    (task_id ++ (if with_root_motion then "_rootmotion" else "") ++ ".fbx")

def fbxCmd (cfg : Settings) (smoothed_npz out_fbx fpsArg : String) : List String :=
  [cfg.BLENDER_PATH, "-b", "-P",
   joinPath (joinPath (joinPath cfg.PROJECT_ROOT "tools") "blender") "smplx_npz_to_fbx.py",
   "--", "--npz", smoothed_npz, "--out", out_fbx, "--fps", fpsArg]

def meshRemovalCmd (cfg : Settings) (input_fbx output_fbx : String) : List String :=
  [cfg.BLENDER_PATH, "-b", "-P",
   joinPath (joinPath (joinPath cfg.PROJECT_ROOT "tools") "blender") "remove_mesh_from_fbx.py",
   "--", "--input", input_fbx, "--output", output_fbx]

def noMeshFbxPath (input_fbx task_id : String) : String :=
  joinPath (pathParent input_fbx) (task_id ++ "_no_mesh.fbx")

/-- `_remove_mesh_from_fbx`: on verified success the original heavier FBX is
deleted (best effort). -/
def removeMeshFromFbx (cfg : Settings) (env : PipeEnv) (input_fbx task_id : String) :
    Except PyExc PipelineResult × List Event :=
  let output_fbx := noMeshFbxPath input_fbx task_id
  let rcev := runCommand cfg env (meshRemovalCmd cfg input_fbx output_fbx)
    cfg.FBX_EXPORT_TIMEOUT ProcessStep.FBX_EXPORT
  match rcev.1 with
  | Except.error e => (Except.error e, rcev.2)
  | Except.ok result =>
    if result.success then
      if env.fileExists output_fbx then
        (Except.ok { result with output_path := some output_fbx },
         rcev.2 ++ [Event.deleteFile input_fbx])
      else
        let result2 := { result with
          success := false,
          error := some ("Mesh-free FBX output file not found: " ++ output_fbx),
          error_code := some ErrorCode.FBX_EXPORT_FAILED }
        (Except.ok result2, rcev.2)
    else (Except.ok result, rcev.2)

/-- `run_fbx_export`: a mesh-removal failure is non-fatal (the original FBX
is kept and overall success is reported); an exception from either
invocation propagates. -/
def runFbxExport (cfg : Settings) (env : PipeEnv) (smoothed_npz task_id : String)
    (fps : Nat) (with_root_motion : Bool) : Except PyExc PipelineResult × List Event :=
  let ev0 : List Event := [Event.progress 75]
  let output_fbx := fbxPath cfg task_id with_root_motion
  let rcev := runCommand cfg env (fbxCmd cfg smoothed_npz output_fbx (toString fps))
    cfg.FBX_EXPORT_TIMEOUT ProcessStep.FBX_EXPORT
  match rcev.1 with
  | Except.error e => (Except.error e, ev0 ++ rcev.2)
  | Except.ok result =>
    if result.success then
      if env.fileExists output_fbx then
        let mrev := removeMeshFromFbx cfg env output_fbx task_id
        match mrev.1 with
        | Except.error e => (Except.error e, ev0 ++ rcev.2 ++ mrev.2)
        | Except.ok mr =>
          if mr.success then
            (Except.ok { result with output_path := mr.output_path },
             ev0 ++ rcev.2 ++ mrev.2 ++ [Event.progress 95])
          else
            (Except.ok { result with output_path := some output_fbx },
             ev0 ++ rcev.2 ++ mrev.2 ++ [Event.progress 95])
      else
        let result2 := { result with
          success := false,
          error := some ("FBX output file not found: " ++ output_fbx),
          error_code := some ErrorCode.FBX_EXPORT_FAILED }
        (Except.ok result2, ev0 ++ rcev.2)
    else (Except.ok result, ev0 ++ rcev.2)

/-! #### Full-pipeline driver (`run_full_pipeline`) -/

/-- `_cleanup_generated_files`: attempts deletion (via the File Handler) of
every truthy accumulated path that still exists; deletion failures are only
logged. -/
def cleanupGeneratedFiles (env : PipeEnv) : List String → List Event
  | [] => []
  | p :: rest =>
      if p != "" && env.fileExists p then
        Event.deleteFile p :: cleanupGeneratedFiles env rest
      else cleanupGeneratedFiles env rest

/-- The result dict of `run_full_pipeline`.  On failure the dict carries
only error/error_code/error_step (no artifact paths); on success only the
four artifact paths.  `total_duration` (wall-clock) is not modelled. -/
structure FullResult where
  success : Bool
  fbx_path : Option String := none
  tracking_pkl : Option String := none
  extracted_npz : Option String := none
  smoothed_npz : Option String := none
  error : Option String := none
  error_code : Option String := none
  error_step : Option String := none
deriving DecidableEq, Repr

/-- A full-pipeline run: the returned dict — or the re-raised exception,
since `run_full_pipeline`'s handlers (`pipeline.py:775-789`) run the
compensating cleanup and then `raise` — the ordered effect log, and (as a
ghost observation) the `generated_files` list handed to the cleanup (empty
when no stage failed). -/
structure FullRun where
  res : Except PyExc FullResult
  events : List Event
  cleaned : List String
deriving Repr

instance : DecidableEq (Except PyExc FullResult) := fun a b =>
  match a, b with
  | Except.ok x, Except.ok y =>
      if h : x = y then isTrue (by rw [h])
      else isFalse (fun h2 => h (Except.ok.inj h2))
  | Except.error x, Except.error y =>
      if h : x = y then isTrue (by rw [h])
      else isFalse (fun h2 => h (Except.error.inj h2))
  | Except.ok _, Except.error _ => isFalse (fun h2 => Except.noConfusion h2)
  | Except.error _, Except.ok _ => isFalse (fun h2 => Except.noConfusion h2)

/-- `FourDHumansPipeline.run_full_pipeline`: four ordered stages, an
accumulated `generated_files` list, compensating cleanup plus a structured
failure on the first ordinary stage failure, compensating cleanup plus a
re-raise when a stage raises, and the four artifact paths on success. -/
def runFullPipeline (cfg : Settings) (env : PipeEnv) (video_path task_id : String)
    (track_id : Option Int) (fps : Nat) (with_root_motion : Bool)
    (strength window ema : String) : FullRun :=
  let r1ev := runTracking cfg env video_path task_id
  match r1ev.1 with
  | Except.error e =>
      { res := Except.error e,
        events := r1ev.2 ++ cleanupGeneratedFiles env [], cleaned := [] }
  | Except.ok r1 =>
    if !r1.success then
      { res := Except.ok
          { success := false, error := r1.error, error_code := r1.error_code,
            error_step := some ProcessStep.TRACKING },
        events := r1ev.2 ++ cleanupGeneratedFiles env [], cleaned := [] }
    else
      match r1.output_path with
      | none =>
          { res := Except.ok
              { success := false,
                error := some "Tracking output file not found: None",
                error_code := some ErrorCode.TRACKING_FAILED,
                error_step := some ProcessStep.TRACKING },
            events := r1ev.2 ++ cleanupGeneratedFiles env [], cleaned := [] }
      | some p1 =>
          if !env.fileExists p1 then
            { res := Except.ok
                { success := false,
                  error := some ("Tracking output file not found: " ++ p1),
                  error_code := some ErrorCode.TRACKING_FAILED,
                  error_step := some ProcessStep.TRACKING },
              events := r1ev.2 ++ cleanupGeneratedFiles env [], cleaned := [] }
          else
            let gen1 := [p1]
            let r2ev := runExtraction cfg env p1 task_id track_id
            match r2ev.1 with
            | Except.error e =>
                { res := Except.error e,
                  events := r1ev.2 ++ r2ev.2 ++ cleanupGeneratedFiles env gen1,
                  cleaned := gen1 }
            | Except.ok r2 =>
              if !r2.success then
                { res := Except.ok
                    { success := false, error := r2.error,
                      error_code := r2.error_code,
                      error_step := some ProcessStep.TRACK_EXTRACTION },
                  events := r1ev.2 ++ r2ev.2 ++ cleanupGeneratedFiles env gen1,
                  cleaned := gen1 }
              else
                match r2.output_path with
                | none =>
                    { res := Except.ok
                        { success := false,
                          error := some "Extraction output file not found: None",
                          error_code := some ErrorCode.TRACK_EXTRACTION_FAILED,
                          error_step := some ProcessStep.TRACK_EXTRACTION },
                      events := r1ev.2 ++ r2ev.2 ++ cleanupGeneratedFiles env gen1,
                      cleaned := gen1 }
                | some p2 =>
                    if !env.fileExists p2 then
                      { res := Except.ok
                          { success := false,
                            error := some ("Extraction output file not found: " ++ p2),
                            error_code := some ErrorCode.TRACK_EXTRACTION_FAILED,
                            error_step := some ProcessStep.TRACK_EXTRACTION },
                        events := r1ev.2 ++ r2ev.2 ++ cleanupGeneratedFiles env gen1,
                        cleaned := gen1 }
                    else
                      let gen2 := [p1, p2]
                      let r3ev := runSmoothing cfg env p2 task_id strength window ema
                      match r3ev.1 with
                      | Except.error e =>
                          { res := Except.error e,
                            events := r1ev.2 ++ r2ev.2 ++ r3ev.2 ++
                              cleanupGeneratedFiles env gen2,
                            cleaned := gen2 }
                      | Except.ok r3 =>
                        if !r3.success then
                          { res := Except.ok
                              { success := false, error := r3.error,
                                error_code := r3.error_code,
                                error_step := some ProcessStep.SMOOTHING },
                            events := r1ev.2 ++ r2ev.2 ++ r3ev.2 ++
                              cleanupGeneratedFiles env gen2,
                            cleaned := gen2 }
                        else
                          match r3.output_path with
                          | none =>
                              { res := Except.ok
                                  { success := false,
                                    error := some "Smoothing output file not found: None",
                                    error_code := some ErrorCode.SMOOTHING_FAILED,
                                    error_step := some ProcessStep.SMOOTHING },
                                events := r1ev.2 ++ r2ev.2 ++ r3ev.2 ++
                                  cleanupGeneratedFiles env gen2,
                                cleaned := gen2 }
                          | some p3 =>
                              if !env.fileExists p3 then
                                { res := Except.ok
                                    { success := false,
                                      error := some
                                        ("Smoothing output file not found: " ++ p3),
                                      error_code := some ErrorCode.SMOOTHING_FAILED,
                                      error_step := some ProcessStep.SMOOTHING },
                                  events := r1ev.2 ++ r2ev.2 ++ r3ev.2 ++
                                    cleanupGeneratedFiles env gen2,
                                  cleaned := gen2 }
                              else
                                let gen3 := [p1, p2, p3]
                                let r4ev := runFbxExport cfg env p3 task_id fps
                                  with_root_motion
                                match r4ev.1 with
                                | Except.error e =>
                                    { res := Except.error e,
                                      events := r1ev.2 ++ r2ev.2 ++ r3ev.2 ++ r4ev.2 ++
                                        cleanupGeneratedFiles env gen3,
                                      cleaned := gen3 }
                                | Except.ok r4 =>
                                  if !r4.success then
                                    { res := Except.ok
                                        { success := false, error := r4.error,
                                          error_code := r4.error_code,
                                          error_step := some ProcessStep.FBX_EXPORT },
                                      events := r1ev.2 ++ r2ev.2 ++ r3ev.2 ++ r4ev.2 ++
                                        cleanupGeneratedFiles env gen3,
                                      cleaned := gen3 }
                                  else
                                    match r4.output_path with
                                    | none =>
                                        { res := Except.ok
                                            { success := false,
                                              error := some
                                                "FBX output file not found: None",
                                              error_code := some ErrorCode.FBX_EXPORT_FAILED,
                                              error_step := some ProcessStep.FBX_EXPORT },
                                          events := r1ev.2 ++ r2ev.2 ++ r3ev.2 ++ r4ev.2 ++
                                            cleanupGeneratedFiles env gen3,
                                          cleaned := gen3 }
                                    | some p4 =>
                                        if !env.fileExists p4 then
                                          { res := Except.ok
                                              { success := false,
                                                error := some
                                                  ("FBX output file not found: " ++ p4),
                                                error_code := some
                                                  ErrorCode.FBX_EXPORT_FAILED,
                                                error_step := some ProcessStep.FBX_EXPORT },
                                            events := r1ev.2 ++ r2ev.2 ++ r3ev.2 ++ r4ev.2 ++
                                              cleanupGeneratedFiles env gen3,
                                            cleaned := gen3 }
                                        else
                                          { res := Except.ok
                                              { success := true, fbx_path := some p4,
                                                tracking_pkl := some p1,
                                                extracted_npz := some p2,
                                                smoothed_npz := some p3 },
                                            events := r1ev.2 ++ r2ev.2 ++ r3ev.2 ++ r4ev.2 ++
                                              [Event.progress 100],
                                            cleaned := [] }

/-- The external commands actually invoked, in order. -/
def invokesOf (evs : List Event) : List (List String) :=
  evs.filterMap (fun e =>
    match e with
    | Event.invoke c => some c
    | _ => none)

/-! ### C8 -/

/-- C8 (code bug): whenever `subprocess.run` raises `TimeoutExpired`,
`_run_command` does NOT return the claimed `TASK_TIMEOUT` failure — the
handler's first statement `if e.process:` (`pipeline.py:134`) accesses an
attribute `subprocess.TimeoutExpired` does not have, outside any try block,
so an `AttributeError` is raised instead, and the force-kill below it is
never attempted. -/
theorem c8_timeout_raises_attribute_error :
    ∀ (cfg : Settings) (env : PipeEnv) (cmd : List String) (timeout : Nat)
      (step : String) (dur : Nat),
      env.runCmd cmd = CmdOutcome.timedOut dur →
      (runCommand cfg env cmd timeout step).1 = Except.error PyExc.attributeError ∧
      Event.killAttempt ∉ (runCommand cfg env cmd timeout step).2 := by
  intro cfg env cmd timeout step dur h
  constructor
  · simp [runCommand, h]
  · simp [runCommand, h]

/-- A fixed concrete configuration for witnesses. -/
def cfgA : Settings :=
  { PROJECT_ROOT := "root", UPLOAD_DIR := "root/uploads",
    OUTPUT_DIR := "root/outputs", TEMP_DIR := "root/tmp",
    RESULT_DIR := "root/results", BLENDER_PATH := "blender", PYTHON := "py",
    SMOOTHNET_CHECKPOINT := "ckpt.pth", TRACKING_TIMEOUT := 900,
    EXTRACTION_TIMEOUT := 60, SMOOTHING_TIMEOUT := 120,
    FBX_EXPORT_TIMEOUT := 120 }

/-- An environment whose external commands always time out. -/
def envTimeout : PipeEnv :=
  { runCmd := fun _ => CmdOutcome.timedOut 7,
    fileExists := fun _ => false, loadTracking := fun _ => none,
    moveOk := fun _ _ => false, deleteOk := fun _ => false,
    validPath := fun _ => false }

/-- Witness for C8: a concrete timed-out invocation raises `AttributeError`
and never attempts the kill. -/
theorem c8_timeout_witness :
    (runCommand cfgA envTimeout ["x"] 5 "tracking").1 =
      Except.error PyExc.attributeError ∧
    Event.killAttempt ∉ (runCommand cfgA envTimeout ["x"] 5 "tracking").2 :=
  c8_timeout_raises_attribute_error cfgA envTimeout ["x"] 5 "tracking" 7 rfl

/-! ### C9 -/

/-- C9: when the tracking tool succeeds and PHALP's output file exists, a
failure of the rename into the task-scoped canonical path is non-fatal: the
stage still returns normally with a successful result whose artifact path
falls back to the tool's original output path. -/
theorem c9_rename_failure_nonfatal :
    ∀ (cfg : Settings) (env : PipeEnv) (vp task_id out errS : String) (dur : Nat),
      env.validPath vp = true →
      env.runCmd (trackingCmd cfg vp) = CmdOutcome.completed 0 out errS dur →
      env.fileExists (phalpOutputPkl cfg vp) = true →
      env.moveOk (phalpOutputPkl cfg vp) (canonicalPkl cfg task_id) = false →
      ∃ r, (runTracking cfg env vp task_id).1 = Except.ok r ∧
        r.success = true ∧ r.output_path = some (phalpOutputPkl cfg vp) := by
  intro cfg env vp task_id out errS dur hv hc hex hmv
  have hok : (runTracking cfg env vp task_id).1 = Except.ok
      { success := true, output_path := some (phalpOutputPkl cfg vp),
        logs := out, duration := dur } := by
    simp [runTracking, runCommand, hv, hc, hex, hmv]
  exact ⟨_, hok, rfl, rfl⟩

/-- An environment in which every command completes successfully, every file
exists, but every rename fails. -/
def envC9 : PipeEnv :=
  { runCmd := fun _ => CmdOutcome.completed 0 "" "" 3,
    fileExists := fun _ => true, loadTracking := fun _ => none,
    moveOk := fun _ _ => false, deleteOk := fun _ => true,
    validPath := fun _ => true }

/-- Witness for C9. -/
theorem c9_witness :
    ∃ r, (runTracking cfgA envC9 "root/uploads/v.mp4" "t1").1 = Except.ok r ∧
      r.success = true ∧
      r.output_path = some (phalpOutputPkl cfgA "root/uploads/v.mp4") :=
  c9_rename_failure_nonfatal cfgA envC9 "root/uploads/v.mp4" "t1" "" "" 3
    rfl rfl rfl rfl

/-! ### C6: auto subject selection

Specification-side notions: the flattened stream of subject ids over all
frames, occurrence counts, and lemmas connecting them to the counts table
`trackCounts` built by the code. -/

/-- All subject ids in the tracking output, frame by frame, in order. -/
def flatTids (data : List (Option (List Int))) : List Int :=
  (data.filterMap (fun x => x)).flatten

/-- Occurrence count of a subject id in a flat id stream. -/
def countTid : List Int → Int → Nat
  | [], _ => 0
  | a :: rest, tid => countTid rest tid + (if a = tid then 1 else 0)

/-- Occurrence count of a subject over all frames of the tracking output. -/
def countOcc (tid : Int) (data : List (Option (List Int))) : Nat :=
  countTid (flatTids data) tid

/-- Value of a key in a counts table (0 when absent, like `get(tid, 0)`). -/
def lookupCount : List (Int × Nat) → Int → Nat
  | [], _ => 0
  | (k, c) :: rest, tid => if k = tid then c else lookupCount rest tid

def keysOf (l : List (Int × Nat)) : List Int := l.map Prod.fst

/-- The counts table of a flat id stream. -/
def countsOf (l : List Int) : List (Int × Nat) := l.foldl bumpCount []

/-- The key list evolution of `bumpCount` folding: append at first sight. -/
def keyFold (ks : List Int) (l : List Int) : List Int :=
  l.foldl (fun acc a => if a ∈ acc then acc else acc ++ [a]) ks

theorem keysOf_bumpCount (l : List (Int × Nat)) (tid : Int) :
    keysOf (bumpCount l tid) =
      if tid ∈ keysOf l then keysOf l else keysOf l ++ [tid] := by
  induction l with
  | nil => simp [bumpCount, keysOf]
  | cons p rest ih =>
      obtain ⟨k, c⟩ := p
      by_cases h : k = tid
      · subst h
        simp [bumpCount, keysOf]
      · simp only [bumpCount, if_neg h, keysOf, List.map_cons] at ih ⊢
        rw [ih]
        by_cases h2 : tid ∈ List.map Prod.fst rest
        · rw [if_pos h2, if_pos (List.mem_cons_of_mem k h2)]
        · have hni : tid ∉ k :: List.map Prod.fst rest := by
            intro hmem
            rcases List.mem_cons.mp hmem with h3 | h3
            · exact h h3.symm
            · exact h2 h3
          rw [if_neg h2, if_neg hni]
          simp

theorem lookupCount_bumpCount (l : List (Int × Nat)) (tid k : Int) :
    lookupCount (bumpCount l tid) k =
      if k = tid then lookupCount l k + 1 else lookupCount l k := by
  induction l with
  | nil =>
      by_cases h : k = tid
      · subst h
        simp [bumpCount, lookupCount]
      · simp [bumpCount, lookupCount, h, Ne.symm h]
  | cons p rest ih =>
      obtain ⟨k2, c⟩ := p
      by_cases h2 : k2 = tid
      · subst h2
        by_cases h3 : k = k2
        · subst h3
          simp [bumpCount, lookupCount]
        · simp [bumpCount, lookupCount, h3, Ne.symm h3]
      · simp only [bumpCount, if_neg h2]
        by_cases h3 : k2 = k
        · subst h3
          have h4 : ¬ k2 = tid := h2
          simp [lookupCount, h4]
        · simp [lookupCount, h3, ih]

theorem keyFold_keysOf (l : List Int) :
    ∀ acc : List (Int × Nat), keysOf (l.foldl bumpCount acc) = keyFold (keysOf acc) l := by
  induction l with
  | nil => intro acc; rfl
  | cons a l' ih =>
      intro acc
      show keysOf (l'.foldl bumpCount (bumpCount acc a)) = keyFold (keysOf acc) (a :: l')
      rw [ih (bumpCount acc a)]
      have : keyFold (keysOf acc) (a :: l') =
          keyFold (if a ∈ keysOf acc then keysOf acc else keysOf acc ++ [a]) l' := by
        simp only [keyFold, List.foldl_cons]
      rw [this, keysOf_bumpCount]

theorem lookupCount_foldl (l : List Int) :
    ∀ (acc : List (Int × Nat)) (k : Int),
      lookupCount (l.foldl bumpCount acc) k = lookupCount acc k + countTid l k := by
  induction l with
  | nil => intro acc k; simp [countTid]
  | cons a l' ih =>
      intro acc k
      show lookupCount (l'.foldl bumpCount (bumpCount acc a)) k = _
      rw [ih (bumpCount acc a) k, lookupCount_bumpCount]
      by_cases h : k = a
      · subst h
        simp [countTid]
        omega
      · have h2 : ¬ a = k := fun he => h he.symm
        simp [countTid, h, h2]

theorem lookupCount_countsOf (l : List Int) (k : Int) :
    lookupCount (countsOf l) k = countTid l k := by
  have := lookupCount_foldl l [] k
  simpa [countsOf, lookupCount] using this

theorem keyFold_mem (l : List Int) :
    ∀ (ks : List Int) (k : Int), k ∈ keyFold ks l ↔ k ∈ ks ∨ k ∈ l := by
  induction l with
  | nil => intro ks k; simp [keyFold]
  | cons a l' ih =>
      intro ks k
      show k ∈ keyFold (if a ∈ ks then ks else ks ++ [a]) l' ↔ _
      rw [ih]
      simp only [List.mem_cons]
      by_cases h : a ∈ ks
      · rw [if_pos h]
        constructor
        · rintro (hk | hk)
          · exact Or.inl hk
          · exact Or.inr (Or.inr hk)
        · rintro (hk | hk | hk)
          · exact Or.inl hk
          · exact Or.inl (hk ▸ h)
          · exact Or.inr hk
      · rw [if_neg h]
        constructor
        · rintro (hk | hk)
          · rcases List.mem_append.mp hk with h2 | h2
            · exact Or.inl h2
            · exact Or.inr (Or.inl (List.mem_singleton.mp h2))
          · exact Or.inr (Or.inr hk)
        · rintro (hk | hk | hk)
          · exact Or.inl (List.mem_append.mpr (Or.inl hk))
          · exact Or.inl (List.mem_append.mpr (Or.inr (List.mem_singleton.mpr hk)))
          · exact Or.inr hk

theorem keyFold_nodup (l : List Int) :
    ∀ ks : List Int, ks.Nodup → (keyFold ks l).Nodup := by
  induction l with
  | nil => intro ks h; exact h
  | cons a l' ih =>
      intro ks h
      show List.Nodup (keyFold (if a ∈ ks then ks else ks ++ [a]) l')
      by_cases h2 : a ∈ ks
      · rw [if_pos h2]
        exact ih ks h
      · rw [if_neg h2]
        refine ih _ ?_
        simpa [List.nodup_append] using ⟨h, h2⟩

theorem keyFold_prefix (l : List Int) :
    ∀ ks : List Int, ks <+: keyFold ks l := by
  induction l with
  | nil => intro ks; exact List.prefix_refl ks
  | cons a l' ih =>
      intro ks
      show ks <+: keyFold (if a ∈ ks then ks else ks ++ [a]) l'
      by_cases h : a ∈ ks
      · rw [if_pos h]
        exact ih ks
      · rw [if_neg h]
        exact List.IsPrefix.trans (List.prefix_append ks [a]) (ih (ks ++ [a]))

theorem prefix_avoid (ks : List Int) :
    ∀ (KP KQ : List Int) (c : Int), ks <+: KP ++ c :: KQ → c ∉ ks → ks <+: KP := by
  induction ks with
  | nil => intro KP KQ c _ _; exact List.nil_prefix
  | cons a ks' ih =>
      intro KP KQ c hpre hc
      cases KP with
      | nil =>
          exfalso
          rw [List.nil_append] at hpre
          rcases List.cons_prefix_cons.mp hpre with ⟨hac, _⟩
          exact hc (by simp [hac])
      | cons b KP' =>
          rw [List.cons_append] at hpre
          rcases List.cons_prefix_cons.mp hpre with ⟨hab, htail⟩
          have hc' : c ∉ ks' := fun h => hc (List.mem_cons_of_mem _ h)
          exact List.cons_prefix_cons.mpr ⟨hab, ih KP' KQ c htail hc'⟩

/-- Generalised first-encounter lemma: a decomposition of the folded key
list at `c` yields a decomposition of the id stream at `c`'s first
occurrence, every id before which is among the earlier keys (or was already
accumulated). -/
theorem keyFold_split (l : List Int) :
    ∀ (ks KP KQ : List Int) (c : Int),
      keyFold ks l = KP ++ c :: KQ → c ∉ ks →
      ∃ pre suf, l = pre ++ c :: suf ∧ c ∉ pre ∧ ∀ k ∈ pre, k ∈ KP ∨ k ∈ ks := by
  induction l with
  | nil =>
      intro ks KP KQ c h hc
      exfalso
      apply hc
      rw [show keyFold ks [] = ks from rfl] at h
      rw [h]
      simp
  | cons a l' ih =>
      intro ks KP KQ c h hc
      by_cases hca : c = a
      · subst hca
        exact ⟨[], l', by simp, by simp, by simp⟩
      · have hstep : keyFold ks (a :: l') =
            keyFold (if a ∈ ks then ks else ks ++ [a]) l' := rfl
        by_cases hak : a ∈ ks
        · rw [hstep, if_pos hak] at h
          obtain ⟨pre', suf', hl, hcp, hmem⟩ := ih ks KP KQ c h hc
          refine ⟨a :: pre', suf', by simp [hl], ?_, ?_⟩
          · intro hmem2
            rcases List.mem_cons.mp hmem2 with h2 | h2
            · exact hca h2
            · exact hcp h2
          · intro k hk
            rcases List.mem_cons.mp hk with h2 | h2
            · exact Or.inr (h2 ▸ hak)
            · exact hmem k h2
        · rw [hstep, if_neg hak] at h
          have hc1 : c ∉ ks ++ [a] := by
            simp only [List.mem_append, List.mem_singleton]
            rintro (h2 | h2)
            · exact hc h2
            · exact hca h2
          obtain ⟨pre', suf', hl, hcp, hmem⟩ := ih (ks ++ [a]) KP KQ c h hc1
          have haKP : a ∈ KP := by
            have hpref : ks ++ [a] <+: KP ++ c :: KQ := by
              rw [← h]
              exact keyFold_prefix l' (ks ++ [a])
            have : ks ++ [a] <+: KP := prefix_avoid _ KP KQ c hpref hc1
            exact this.subset (by simp)
          refine ⟨a :: pre', suf', by simp [hl], ?_, ?_⟩
          · intro hmem2
            rcases List.mem_cons.mp hmem2 with h2 | h2
            · exact hca h2
            · exact hcp h2
          · intro k hk
            rcases List.mem_cons.mp hk with h2 | h2
            · exact Or.inl (h2 ▸ haKP)
            · rcases hmem k h2 with h3 | h3
              · exact Or.inl h3
              · rcases List.mem_append.mp h3 with h4 | h4
                · exact Or.inr h4
                · exact Or.inl ((List.mem_singleton.mp h4) ▸ haKP)

theorem entry_lookupCount (al : List (Int × Nat)) :
    ∀ (k : Int) (v : Nat), (keysOf al).Nodup → (k, v) ∈ al → lookupCount al k = v := by
  induction al with
  | nil => intro k v _ h; cases h
  | cons p rest ih =>
      intro k v hnd hm
      obtain ⟨k2, u⟩ := p
      simp only [keysOf, List.map_cons, List.nodup_cons] at hnd
      obtain ⟨hk2, hnd2⟩ := hnd
      rcases List.mem_cons.mp hm with h2 | h2
      · cases h2
        simp [lookupCount]
      · by_cases h3 : k2 = k
        · exfalso
          apply hk2
          rw [h3]
          exact List.mem_map_of_mem Prod.fst h2
        · simp only [lookupCount, if_neg h3]
          exact ih k v hnd2 h2

theorem key_entry (al : List (Int × Nat)) :
    ∀ k : Int, k ∈ keysOf al → (k, lookupCount al k) ∈ al := by
  induction al with
  | nil => intro k h; simp [keysOf] at h
  | cons p rest ih =>
      intro k h
      obtain ⟨k2, u⟩ := p
      by_cases h2 : k2 = k
      · subst h2
        simp [lookupCount]
      · have h3 : k ∈ keysOf rest := by
          simp only [keysOf, List.map_cons, List.mem_cons] at h
          rcases h with h4 | h4
          · exact absurd h4.symm h2
          · exact h4
        simp only [lookupCount, if_neg h2]
        exact List.mem_cons_of_mem _ (ih k h3)

theorem trackCounts_eq_countsOf (data : List (Option (List Int))) :
    trackCounts data = countsOf (flatTids data) := by
  suffices h : ∀ (d : List (Option (List Int))) (acc : List (Int × Nat)),
      d.foldl (fun acc fr =>
        match fr with
        | none => acc
        | some tids => tids.foldl bumpCount acc) acc = (flatTids d).foldl bumpCount acc by
    exact h data []
  intro d
  induction d with
  | nil => intro acc; rfl
  | cons fr d' ih =>
      intro acc
      cases fr with
      | none =>
          show d'.foldl _ acc = _
          rw [ih acc]
          simp [flatTids]
      | some tids =>
          show d'.foldl _ (tids.foldl bumpCount acc) = _
          rw [ih (tids.foldl bumpCount acc)]
          have : flatTids (some tids :: d') = tids ++ flatTids d' := by
            simp [flatTids]
          rw [this, List.foldl_append]

theorem pickFold_spec (rest : List (Int × Nat)) :
    ∀ init : Int × Nat,
      (∀ x ∈ rest,
        x.2 ≤ (rest.foldl (fun best q => if q.2 > best.2 then q else best) init).2) ∧
      init.2 ≤ (rest.foldl (fun best q => if q.2 > best.2 then q else best) init).2 ∧
      ((rest.foldl (fun best q => if q.2 > best.2 then q else best) init) = init ∨
        ∃ p q, rest = p ++ (rest.foldl (fun best q => if q.2 > best.2 then q else best) init) :: q ∧
          init.2 < (rest.foldl (fun best q => if q.2 > best.2 then q else best) init).2 ∧
          ∀ x ∈ p, x.2 < (rest.foldl (fun best q => if q.2 > best.2 then q else best) init).2) := by
  induction rest with
  | nil => intro init; exact ⟨by simp, le_refl _, Or.inl rfl⟩
  | cons x rest' ih =>
      intro init
      by_cases hx : x.2 > init.2
      · have hred : (x :: rest').foldl (fun best q => if q.2 > best.2 then q else best) init =
            rest'.foldl (fun best q => if q.2 > best.2 then q else best) x := by
          simp [hx]
        obtain ⟨ha, hb, hc⟩ := ih x
        rw [hred]
        set r := rest'.foldl (fun best q => if q.2 > best.2 then q else best) x with hrdef
        refine ⟨?_, le_of_lt (lt_of_lt_of_le hx hb), ?_⟩
        · intro y hy
          rcases List.mem_cons.mp hy with h2 | h2
          · exact h2 ▸ hb
          · exact ha y h2
        · rcases hc with h2 | ⟨p, q, hpq, hlt, hall⟩
          · refine Or.inr ⟨[], rest', by rw [h2]; rfl, by rw [h2]; exact hx, by simp⟩
          · refine Or.inr ⟨x :: p, q, by rw [hpq]; rfl, lt_of_lt_of_le hx hb, ?_⟩
            intro y hy
            rcases List.mem_cons.mp hy with h3 | h3
            · exact h3 ▸ hlt
            · exact hall y h3
      · have hred : (x :: rest').foldl (fun best q => if q.2 > best.2 then q else best) init =
            rest'.foldl (fun best q => if q.2 > best.2 then q else best) init := by
          simp [hx]
        obtain ⟨ha, hb, hc⟩ := ih init
        rw [hred]
        set r := rest'.foldl (fun best q => if q.2 > best.2 then q else best) init with hrdef
        refine ⟨?_, hb, ?_⟩
        · intro y hy
          rcases List.mem_cons.mp hy with h2 | h2
          · exact h2 ▸ (le_trans (le_of_not_lt hx) hb)
          · exact ha y h2
        · rcases hc with h2 | ⟨p, q, hpq, hlt, hall⟩
          · exact Or.inl h2
          · refine Or.inr ⟨x :: p, q, by rw [hpq]; rfl, hlt, ?_⟩
            intro y hy
            rcases List.mem_cons.mp hy with h3 | h3
            · exact h3 ▸ (lt_of_le_of_lt (le_of_not_lt hx) hlt)
            · exact hall y h3

theorem maxKeyByValue_spec (al : List (Int × Nat)) (hne : al ≠ []) :
    ∃ c vc P Q, maxKeyByValue al = some c ∧ al = P ++ (c, vc) :: Q ∧
      (∀ x ∈ P, x.2 < vc) ∧ (∀ x ∈ al, x.2 ≤ vc) := by
  rcases al with _ | ⟨⟨k0, v0⟩, rest⟩
  · exact absurd rfl hne
  obtain ⟨ha, hb, hc⟩ := pickFold_spec rest (k0, v0)
  have hmax : maxKeyByValue ((k0, v0) :: rest) =
      some ((rest.foldl (fun best q => if q.2 > best.2 then q else best) (k0, v0)).1) := rfl
  rcases hc with h2 | ⟨p, q, hpq, hlt, hall⟩
  · refine ⟨k0, v0, [], rest, ?_, by simp, by simp, ?_⟩
    · rw [hmax, h2]
    · intro x hx
      rcases List.mem_cons.mp hx with h3 | h3
      · simp [h3]
      · have := ha x h3
        rw [h2] at this
        exact this
  · set r := rest.foldl (fun best q => if q.2 > best.2 then q else best) (k0, v0) with hr
    refine ⟨r.1, r.2, (k0, v0) :: p, q, by rw [hmax], ?_, ?_, ?_⟩
    · rw [hpq]
      simp
    · intro x hx
      rcases List.mem_cons.mp hx with h3 | h3
      · subst h3
        exact hlt
      · exact hall x h3
    · intro x hx
      rcases List.mem_cons.mp hx with h3 | h3
      · exact h3 ▸ hb
      · exact ha x h3

theorem countTid_pos (l : List Int) (a : Int) : 0 < countTid l a ↔ a ∈ l := by
  induction l with
  | nil => simp [countTid]
  | cons b rest ih =>
      by_cases h : b = a
      · subst h
        simp [countTid]
      · simp only [countTid, if_neg h, Nat.add_zero, List.mem_cons, ih]
        constructor
        · intro h2
          exact Or.inr h2
        · rintro (h2 | h2)
          · exact absurd h2.symm h
          · exact h2

/-- The spec's concrete example: subject 0 occurs in 5 frames, subject 1 in
12 frames (both in the first five frames, subject 1 alone in seven more). -/
def exampleAB : List (Option (List Int)) :=
  List.replicate 5 (some [0, 1]) ++ List.replicate 7 (some [1])

/-- C6: whenever the tracking output holds at least one subject and no
selector is given, auto-selection returns a subject that occurs in the
output, whose frame-occurrence count is maximal, and which — among
equal-count subjects — is the one first encountered (no equal-count subject
occurs before its first occurrence); on counts 0 ↦ 5 and 1 ↦ 12 it selects
subject 1. -/
theorem c6_extraction_auto_select :
    (∀ data : List (Option (List Int)), trackCounts data ≠ [] →
      ∃ c, getLongestTrackId data = some c ∧
        c ∈ flatTids data ∧
        (∀ tid, countOcc tid data ≤ countOcc c data) ∧
        (∀ tid, countOcc tid data = countOcc c data → tid ≠ c →
          ∃ pre suf, flatTids data = pre ++ c :: suf ∧ c ∉ pre ∧ tid ∉ pre)) ∧
    getLongestTrackId exampleAB = some 1 := by
  constructor
  · intro data hne
    have hw : trackCounts data = countsOf (flatTids data) := trackCounts_eq_countsOf data
    set l := flatTids data with hldef
    have hal : countsOf l ≠ [] := hw ▸ hne
    obtain ⟨c, vc, P, Q, hmax, hsplit, hPlt, hall⟩ := maxKeyByValue_spec (countsOf l) hal
    have hdata_ne : data.isEmpty = false := by
      cases hd : data with
      | nil =>
          exfalso
          apply hne
          rw [hd]
          rfl
      | cons a d2 => rfl
    have hisEmpty : (trackCounts data).isEmpty = false := by
      cases htc : trackCounts data with
      | nil => exact absurd htc hne
      | cons a t => rfl
    have hgl : getLongestTrackId data = some c := by
      simp only [getLongestTrackId, hdata_ne, Bool.false_eq_true, if_false, hisEmpty]
      rw [hw]
      exact hmax
    have hkeys : keysOf (countsOf l) = keyFold [] l := keyFold_keysOf l []
    have hnodup : (keysOf (countsOf l)).Nodup := by
      rw [hkeys]
      exact keyFold_nodup l [] List.nodup_nil
    have hcvc : (c, vc) ∈ countsOf l := by
      rw [hsplit]
      exact List.mem_append_right _ (List.mem_cons_self _ _)
    have hcount_c : countTid l c = vc := by
      rw [← lookupCount_countsOf]
      exact entry_lookupCount (countsOf l) c vc hnodup hcvc
    have hmemc : c ∈ l := by
      have h1 : c ∈ keysOf (countsOf l) := by
        rw [hsplit]
        simp [keysOf]
      rw [hkeys] at h1
      rcases (keyFold_mem l [] c).mp h1 with h2 | h2
      · cases h2
      · exact h2
    have hle : ∀ tid, countTid l tid ≤ vc := by
      intro tid
      by_cases htid : tid ∈ l
      · have hk : tid ∈ keysOf (countsOf l) := by
          rw [hkeys]
          exact (keyFold_mem l [] tid).mpr (Or.inr htid)
        have hent := key_entry (countsOf l) tid hk
        have h2 := hall _ hent
        simpa [lookupCount_countsOf] using h2
      · have h0 : countTid l tid = 0 := by
          by_contra h2
          exact htid ((countTid_pos l tid).mp (Nat.pos_of_ne_zero h2))
        simp [h0]
    refine ⟨c, hgl, hmemc, ?_, ?_⟩
    · intro tid
      show countTid l tid ≤ countTid l c
      rw [hcount_c]
      exact hle tid
    · intro tid hcnt htne
      have hcnt2 : countTid l tid = vc := by
        have : countTid l tid = countTid l c := hcnt
        rw [this, hcount_c]
      have hvpos : 0 < vc := by
        rw [← hcount_c]
        exact (countTid_pos l c).mpr hmemc
      have htidmem : tid ∈ l := (countTid_pos l tid).mp (hcnt2 ▸ hvpos)
      have hk : tid ∈ keysOf (countsOf l) := by
        rw [hkeys]
        exact (keyFold_mem l [] tid).mpr (Or.inr htidmem)
      have hent := key_entry (countsOf l) tid hk
      have hentv : (tid, vc) ∈ countsOf l := by
        have hlc : lookupCount (countsOf l) tid = vc := by
          rw [lookupCount_countsOf]
          exact hcnt2
        rw [hlc] at hent
        exact hent
      have hkeysplit : keyFold [] l = keysOf P ++ c :: keysOf Q := by
        rw [← hkeys, hsplit]
        simp [keysOf]
      obtain ⟨pre, suf, hls, hcp, hpreP⟩ :=
        keyFold_split l [] (keysOf P) (keysOf Q) c hkeysplit (by simp)
      refine ⟨pre, suf, hls, hcp, ?_⟩
      intro htidpre
      rcases hpreP tid htidpre with hmemP | hmemnil
      · obtain ⟨x, hxP, hx1⟩ := List.mem_map.mp hmemP
        have hxal : x ∈ countsOf l := by
          rw [hsplit]
          exact List.mem_append_left _ hxP
        have hxv : lookupCount (countsOf l) x.1 = x.2 :=
          entry_lookupCount (countsOf l) x.1 x.2 hnodup hxal
        have hxvc : x.2 = vc := by
          rw [← hxv, hx1, lookupCount_countsOf]
          exact hcnt2
        have hlt2 : x.2 < vc := hPlt x hxP
        omega
      · cases hmemnil
  · decide

/-- Witness for C6 at the concrete example (counts 0 ↦ 5, 1 ↦ 12). -/
theorem c6_witness :
    ∃ c, getLongestTrackId exampleAB = some c ∧ c ∈ flatTids exampleAB ∧
      ∀ tid, countOcc tid exampleAB ≤ countOcc c exampleAB := by
  obtain ⟨c, h1, h2, h3, -⟩ :=
    c6_extraction_auto_select.1 exampleAB (by decide)
  exact ⟨c, h1, h2, h3⟩

/-! ### Helper lemmas for the pipeline driver theorems -/

/-- Whether a path is still on disk after the run: it existed (per the
oracle) and was not successfully deleted by a logged deletion attempt. -/
def diskAfter (env : PipeEnv) (evs : List Event) (p : String) : Bool :=
  env.fileExists p && !(decide (Event.deleteFile p ∈ evs) && env.deleteOk p)

theorem joinPath_ne_empty (a b : String) : joinPath a b ≠ "" := by
  intro h
  have h2 := congrArg String.length h
  simp only [joinPath, String.length_append] at h2
  have h3 : ("/" : String).length = 1 := rfl
  rw [h3] at h2
  simp at h2

theorem cleanup_mem (env : PipeEnv) (paths : List String) (p : String)
    (hmem : p ∈ paths) (hne : p ≠ "") (hex : env.fileExists p = true) :
    Event.deleteFile p ∈ cleanupGeneratedFiles env paths := by
  induction paths with
  | nil => cases hmem
  | cons q rest ih =>
      rcases List.mem_cons.mp hmem with h2 | h2
      · subst h2
        have hcond : (p != "" && env.fileExists p) = true := by
          simp [hex, hne]
        simp [cleanupGeneratedFiles, hcond]
      · by_cases hcond : (q != "" && env.fileExists q) = true
        · simp only [cleanupGeneratedFiles, hcond, if_true]
          exact List.mem_cons_of_mem _ (ih h2)
        · simp only [cleanupGeneratedFiles, hcond, if_false]
          exact ih h2

theorem invokesOf_append (a b : List Event) :
    invokesOf (a ++ b) = invokesOf a ++ invokesOf b := by
  simp [invokesOf]

theorem invokesOf_cleanup (env : PipeEnv) (paths : List String) :
    invokesOf (cleanupGeneratedFiles env paths) = [] := by
  induction paths with
  | nil => rfl
  | cons p rest ih =>
      by_cases hcond : (p != "" && env.fileExists p) = true
      · simp only [cleanupGeneratedFiles, hcond, if_true]
        simpa [invokesOf] using ih
      · simp only [cleanupGeneratedFiles, hcond, if_false]
        exact ih

theorem runCommand_ok_failed (cfg : Settings) (env : PipeEnv) (cmd : List String)
    (timeout : Nat) (step : String) (r : PipelineResult)
    (hok : (runCommand cfg env cmd timeout step).1 = Except.ok r)
    (h : r.success = false) :
    r.error.isSome = true ∧ r.error_code.isSome = true := by
  cases ho : env.runCmd cmd with
  | completed rc out errS dur =>
      by_cases hrc : rc = 0
      · simp only [runCommand, ho] at hok
        simp [hrc] at hok
        subst hok
        simp at h
      · simp only [runCommand, ho] at hok
        simp [hrc] at hok
        subst hok
        simp
  | timedOut dur =>
      simp only [runCommand, ho] at hok
      simp at hok
  | osError msg dur =>
      simp only [runCommand, ho] at hok
      simp at hok
      subst hok
      simp
  | valueError msg dur =>
      simp only [runCommand, ho] at hok
      simp at hok
      subst hok
      simp
  | otherError msg dur =>
      simp only [runCommand, ho] at hok
      simp at hok
      subst hok
      simp

theorem runTracking_success_shape (cfg : Settings) (env : PipeEnv) (vp task_id : String)
    (r : PipelineResult)
    (hok : (runTracking cfg env vp task_id).1 = Except.ok r)
    (h : r.success = true) :
    ∃ p, r.output_path = some p ∧ env.fileExists p = true ∧
      (p = canonicalPkl cfg task_id ∨ p = phalpOutputPkl cfg vp) := by
  by_cases hv : env.validPath vp
  · rcases hcmd : (runCommand cfg env (trackingCmd cfg vp)
        cfg.TRACKING_TIMEOUT ProcessStep.TRACKING).1 with e | rc
    · simp only [runTracking, hv, hcmd] at hok
      simp at hok
    · by_cases hs : rc.success = true
      · by_cases hex : env.fileExists (phalpOutputPkl cfg vp) = true
        · by_cases hmv : env.moveOk (phalpOutputPkl cfg vp) (canonicalPkl cfg task_id) = true
          · by_cases hex2 : env.fileExists (canonicalPkl cfg task_id) = true
            · simp only [runTracking, hv, hcmd] at hok
              simp [hs, hex, hmv, hex2] at hok
              subst hok
              exact ⟨canonicalPkl cfg task_id, by simp, hex2, Or.inl rfl⟩
            · simp only [runTracking, hv, hcmd] at hok
              simp [hs, hex, hmv, hex2] at hok
              subst hok
              simp at h
          · simp only [runTracking, hv, hcmd] at hok
            simp [hs, hex, hmv] at hok
            subst hok
            exact ⟨phalpOutputPkl cfg vp, by simp, hex, Or.inr rfl⟩
        · simp only [runTracking, hv, hcmd] at hok
          simp [hs, hex] at hok
          subst hok
          simp at h
      · have hs2 : rc.success = false := by simpa using hs
        simp only [runTracking, hv, hcmd] at hok
        simp [hs2] at hok
        subst hok
        simp [hs2] at h
  · simp only [runTracking] at hok
    simp [hv] at hok
    subst hok
    simp at h

theorem runTracking_failed (cfg : Settings) (env : PipeEnv) (vp task_id : String)
    (r : PipelineResult)
    (hok : (runTracking cfg env vp task_id).1 = Except.ok r)
    (h : r.success = false) :
    r.error.isSome = true ∧ r.error_code.isSome = true := by
  by_cases hv : env.validPath vp
  · rcases hcmd : (runCommand cfg env (trackingCmd cfg vp)
        cfg.TRACKING_TIMEOUT ProcessStep.TRACKING).1 with e | rc
    · simp only [runTracking, hv, hcmd] at hok
      simp at hok
    · by_cases hs : rc.success = true
      · by_cases hex : env.fileExists (phalpOutputPkl cfg vp) = true
        · by_cases hmv : env.moveOk (phalpOutputPkl cfg vp) (canonicalPkl cfg task_id) = true
          · by_cases hex2 : env.fileExists (canonicalPkl cfg task_id) = true
            · simp only [runTracking, hv, hcmd] at hok
              simp [hs, hex, hmv, hex2] at hok
              subst hok
              simp [hs] at h
            · simp only [runTracking, hv, hcmd] at hok
              simp [hs, hex, hmv, hex2] at hok
              subst hok
              simp
          · simp only [runTracking, hv, hcmd] at hok
            simp [hs, hex, hmv] at hok
            subst hok
            simp [hs] at h
        · simp only [runTracking, hv, hcmd] at hok
          simp [hs, hex] at hok
          subst hok
          simp
      · have hs2 : rc.success = false := by simpa using hs
        have hrc := runCommand_ok_failed cfg env (trackingCmd cfg vp)
          cfg.TRACKING_TIMEOUT ProcessStep.TRACKING rc hcmd hs2
        simp only [runTracking, hv, hcmd] at hok
        simp [hs2] at hok
        subst hok
        exact hrc
  · simp only [runTracking] at hok
    simp [hv] at hok
    subst hok
    simp

theorem runExtraction_success_shape (cfg : Settings) (env : PipeEnv)
    (tracking_pkl task_id : String) (track_id : Option Int) (r : PipelineResult)
    (hok : (runExtraction cfg env tracking_pkl task_id track_id).1 = Except.ok r)
    (h : r.success = true) :
    ∃ tid, resolveTid env tracking_pkl track_id = some tid ∧
      r.output_path = some (extractedNpzPath cfg task_id tid) ∧
      env.fileExists (extractedNpzPath cfg task_id tid) = true := by
  cases htid : resolveTid env tracking_pkl track_id with
  | none =>
      simp only [runExtraction, htid] at hok
      simp at hok
      subst hok
      simp at h
  | some tid =>
      rcases hcmd : (runCommand cfg env
          (extractionCmd cfg tracking_pkl (extractedNpzPath cfg task_id tid) (toString tid))
          cfg.EXTRACTION_TIMEOUT ProcessStep.TRACK_EXTRACTION).1 with e | rc
      · simp only [runExtraction, htid, hcmd] at hok
        simp at hok
      · by_cases hs : rc.success = true
        · by_cases hex : env.fileExists (extractedNpzPath cfg task_id tid) = true
          · simp only [runExtraction, htid, hcmd] at hok
            simp [hs, hex] at hok
            subst hok
            exact ⟨tid, rfl, by simp, hex⟩
          · simp only [runExtraction, htid, hcmd] at hok
            simp [hs, hex] at hok
            subst hok
            simp at h
        · have hs2 : rc.success = false := by simpa using hs
          simp only [runExtraction, htid, hcmd] at hok
          simp [hs2] at hok
          subst hok
          simp [hs2] at h

theorem runExtraction_failed (cfg : Settings) (env : PipeEnv)
    (tracking_pkl task_id : String) (track_id : Option Int) (r : PipelineResult)
    (hok : (runExtraction cfg env tracking_pkl task_id track_id).1 = Except.ok r)
    (h : r.success = false) :
    r.error.isSome = true ∧ r.error_code.isSome = true := by
  cases htid : resolveTid env tracking_pkl track_id with
  | none =>
      simp only [runExtraction, htid] at hok
      simp at hok
      subst hok
      simp
  | some tid =>
      rcases hcmd : (runCommand cfg env
          (extractionCmd cfg tracking_pkl (extractedNpzPath cfg task_id tid) (toString tid))
          cfg.EXTRACTION_TIMEOUT ProcessStep.TRACK_EXTRACTION).1 with e | rc
      · simp only [runExtraction, htid, hcmd] at hok
        simp at hok
      · by_cases hs : rc.success = true
        · by_cases hex : env.fileExists (extractedNpzPath cfg task_id tid) = true
          · simp only [runExtraction, htid, hcmd] at hok
            simp [hs, hex] at hok
            subst hok
            simp [hs] at h
          · simp only [runExtraction, htid, hcmd] at hok
            simp [hs, hex] at hok
            subst hok
            simp
        · have hs2 : rc.success = false := by simpa using hs
          have hrc := runCommand_ok_failed cfg env
            (extractionCmd cfg tracking_pkl (extractedNpzPath cfg task_id tid) (toString tid))
            cfg.EXTRACTION_TIMEOUT ProcessStep.TRACK_EXTRACTION rc hcmd hs2
          simp only [runExtraction, htid, hcmd] at hok
          simp [hs2] at hok
          subst hok
          exact hrc

theorem runSmoothing_success_shape (cfg : Settings) (env : PipeEnv)
    (extracted_npz task_id strength window ema : String) (r : PipelineResult)
    (hok : (runSmoothing cfg env extracted_npz task_id strength window ema).1 = Except.ok r)
    (h : r.success = true) :
    r.output_path = some (smoothedNpzPath cfg task_id) ∧
    env.fileExists (smoothedNpzPath cfg task_id) = true := by
  rcases hcmd : (runCommand cfg env
      (smoothingCmd cfg extracted_npz (smoothedNpzPath cfg task_id) window ema strength)
      cfg.SMOOTHING_TIMEOUT ProcessStep.SMOOTHING).1 with e | rc
  · simp only [runSmoothing, hcmd] at hok
    simp at hok
  · by_cases hs : rc.success = true
    · by_cases hex : env.fileExists (smoothedNpzPath cfg task_id) = true
      · simp only [runSmoothing, hcmd] at hok
        simp [hs, hex] at hok
        subst hok
        exact ⟨by simp, hex⟩
      · simp only [runSmoothing, hcmd] at hok
        simp [hs, hex] at hok
        subst hok
        simp at h
    · have hs2 : rc.success = false := by simpa using hs
      simp only [runSmoothing, hcmd] at hok
      simp [hs2] at hok
      subst hok
      simp [hs2] at h

theorem runSmoothing_failed (cfg : Settings) (env : PipeEnv)
    (extracted_npz task_id strength window ema : String) (r : PipelineResult)
    (hok : (runSmoothing cfg env extracted_npz task_id strength window ema).1 = Except.ok r)
    (h : r.success = false) :
    r.error.isSome = true ∧ r.error_code.isSome = true := by
  rcases hcmd : (runCommand cfg env
      (smoothingCmd cfg extracted_npz (smoothedNpzPath cfg task_id) window ema strength)
      cfg.SMOOTHING_TIMEOUT ProcessStep.SMOOTHING).1 with e | rc
  · simp only [runSmoothing, hcmd] at hok
    simp at hok
  · by_cases hs : rc.success = true
    · by_cases hex : env.fileExists (smoothedNpzPath cfg task_id) = true
      · simp only [runSmoothing, hcmd] at hok
        simp [hs, hex] at hok
        subst hok
        simp [hs] at h
      · simp only [runSmoothing, hcmd] at hok
        simp [hs, hex] at hok
        subst hok
        simp
    · have hs2 : rc.success = false := by simpa using hs
      have hrc := runCommand_ok_failed cfg env
        (smoothingCmd cfg extracted_npz (smoothedNpzPath cfg task_id) window ema strength)
        cfg.SMOOTHING_TIMEOUT ProcessStep.SMOOTHING rc hcmd hs2
      simp only [runSmoothing, hcmd] at hok
      simp [hs2] at hok
      subst hok
      exact hrc

theorem removeMeshFromFbx_success_shape (cfg : Settings) (env : PipeEnv)
    (input_fbx task_id : String) (r : PipelineResult)
    (hok : (removeMeshFromFbx cfg env input_fbx task_id).1 = Except.ok r)
    (h : r.success = true) :
    r.output_path = some (noMeshFbxPath input_fbx task_id) ∧
    env.fileExists (noMeshFbxPath input_fbx task_id) = true := by
  rcases hcmd : (runCommand cfg env
      (meshRemovalCmd cfg input_fbx (noMeshFbxPath input_fbx task_id))
      cfg.FBX_EXPORT_TIMEOUT ProcessStep.FBX_EXPORT).1 with e | rc
  · simp only [removeMeshFromFbx, hcmd] at hok
    simp at hok
  · by_cases hs : rc.success = true
    · by_cases hex : env.fileExists (noMeshFbxPath input_fbx task_id) = true
      · simp only [removeMeshFromFbx, hcmd] at hok
        simp [hs, hex] at hok
        subst hok
        exact ⟨by simp, hex⟩
      · simp only [removeMeshFromFbx, hcmd] at hok
        simp [hs, hex] at hok
        subst hok
        simp at h
    · have hs2 : rc.success = false := by simpa using hs
      simp only [removeMeshFromFbx, hcmd] at hok
      simp [hs2] at hok
      subst hok
      simp [hs2] at h

theorem runFbxExport_success_shape (cfg : Settings) (env : PipeEnv)
    (smoothed_npz task_id : String) (fps : Nat) (wrm : Bool) (r : PipelineResult)
    (hok : (runFbxExport cfg env smoothed_npz task_id fps wrm).1 = Except.ok r)
    (h : r.success = true) :
    ∃ p, r.output_path = some p ∧ env.fileExists p = true ∧
      (p = noMeshFbxPath (fbxPath cfg task_id wrm) task_id ∨ p = fbxPath cfg task_id wrm) := by
  rcases hcmd : (runCommand cfg env
      (fbxCmd cfg smoothed_npz (fbxPath cfg task_id wrm) (toString fps))
      cfg.FBX_EXPORT_TIMEOUT ProcessStep.FBX_EXPORT).1 with e | rc
  · simp only [runFbxExport, hcmd] at hok
    simp at hok
  · by_cases hs : rc.success = true
    · by_cases hex : env.fileExists (fbxPath cfg task_id wrm) = true
      · rcases hmr : (removeMeshFromFbx cfg env (fbxPath cfg task_id wrm) task_id).1 with e2 | mr
        · simp only [runFbxExport, hcmd, hmr] at hok
          simp [hs, hex] at hok
        · by_cases hms : mr.success = true
          · obtain ⟨hout, hex2⟩ := removeMeshFromFbx_success_shape cfg env
              (fbxPath cfg task_id wrm) task_id mr hmr hms
            simp only [runFbxExport, hcmd, hmr] at hok
            simp [hs, hex, hms] at hok
            subst hok
            exact ⟨noMeshFbxPath (fbxPath cfg task_id wrm) task_id,
              by simp [hout], hex2, Or.inl rfl⟩
          · simp only [runFbxExport, hcmd, hmr] at hok
            simp [hs, hex, hms] at hok
            subst hok
            exact ⟨fbxPath cfg task_id wrm, by simp, hex, Or.inr rfl⟩
      · simp only [runFbxExport, hcmd] at hok
        simp [hs, hex] at hok
        subst hok
        simp at h
    · have hs2 : rc.success = false := by simpa using hs
      simp only [runFbxExport, hcmd] at hok
      simp [hs2] at hok
      subst hok
      simp [hs2] at h

theorem runFbxExport_failed (cfg : Settings) (env : PipeEnv)
    (smoothed_npz task_id : String) (fps : Nat) (wrm : Bool) (r : PipelineResult)
    (hok : (runFbxExport cfg env smoothed_npz task_id fps wrm).1 = Except.ok r)
    (h : r.success = false) :
    r.error.isSome = true ∧ r.error_code.isSome = true := by
  rcases hcmd : (runCommand cfg env
      (fbxCmd cfg smoothed_npz (fbxPath cfg task_id wrm) (toString fps))
      cfg.FBX_EXPORT_TIMEOUT ProcessStep.FBX_EXPORT).1 with e | rc
  · simp only [runFbxExport, hcmd] at hok
    simp at hok
  · by_cases hs : rc.success = true
    · by_cases hex : env.fileExists (fbxPath cfg task_id wrm) = true
      · rcases hmr : (removeMeshFromFbx cfg env (fbxPath cfg task_id wrm) task_id).1 with e2 | mr
        · simp only [runFbxExport, hcmd, hmr] at hok
          simp [hs, hex] at hok
        · by_cases hms : mr.success = true
          · simp only [runFbxExport, hcmd, hmr] at hok
            simp [hs, hex, hms] at hok
            subst hok
            simp [hs] at h
          · simp only [runFbxExport, hcmd, hmr] at hok
            simp [hs, hex, hms] at hok
            subst hok
            simp [hs] at h
      · simp only [runFbxExport, hcmd] at hok
        simp [hs, hex] at hok
        subst hok
        simp
    · have hs2 : rc.success = false := by simpa using hs
      have hrc := runCommand_ok_failed cfg env
        (fbxCmd cfg smoothed_npz (fbxPath cfg task_id wrm) (toString fps))
        cfg.FBX_EXPORT_TIMEOUT ProcessStep.FBX_EXPORT rc hcmd hs2
      simp only [runFbxExport, hcmd] at hok
      simp [hs2] at hok
      subst hok
      exact hrc

/-! ### C7 -/

theorem getLongestTrackId_of_counts_empty (data : List (Option (List Int)))
    (h : trackCounts data = []) : getLongestTrackId data = none := by
  by_cases hd : data.isEmpty = true
  · simp [getLongestTrackId, hd]
  · simp [getLongestTrackId, hd, h]

/-- C7: when tracking returns normally and successfully but its output holds
zero subjects (and no explicit selector is given), extraction fails with
`NO_TRACKS_FOUND` without invoking the extraction tool, the driver reports a
structured failure at the extraction stage, and no command beyond the
tracking stage's is ever invoked — in particular neither the smoothing nor
the export tool runs. -/
theorem c7_no_tracks_short_circuit :
    ∀ (cfg : Settings) (env : PipeEnv) (vp task_id : String) (fps : Nat)
      (wrm : Bool) (strength window ema : String) (r : PipelineResult),
      (runTracking cfg env vp task_id).1 = Except.ok r →
      r.success = true →
      (∀ p data, r.output_path = some p →
        env.loadTracking p = some data → trackCounts data = []) →
      ∃ fres, (runFullPipeline cfg env vp task_id none fps wrm strength window ema).res =
          Except.ok fres ∧
        fres.success = false ∧
        fres.error_code = some ErrorCode.NO_TRACKS_FOUND ∧
        fres.error_step = some ProcessStep.TRACK_EXTRACTION ∧
        invokesOf (runFullPipeline cfg env vp task_id none fps wrm strength window ema).events =
          invokesOf (runTracking cfg env vp task_id).2 := by
  intro cfg env vp task_id fps wrm strength window ema r hok hsucc hz
  obtain ⟨p1, hout, hex1, _⟩ := runTracking_success_shape cfg env vp task_id r hok hsucc
  have hauto : getLongestTrackIdFromFile env p1 = none := by
    rw [getLongestTrackIdFromFile]
    cases hload : env.loadTracking p1 with
    | none => rfl
    | some data => exact getLongestTrackId_of_counts_empty data (hz p1 data hout hload)
  have hres : resolveTid env p1 none = none := hauto
  have hext : runExtraction cfg env p1 task_id none =
      (Except.ok
        { success := false, error := some "No tracks found in tracking result",
          error_code := some ErrorCode.NO_TRACKS_FOUND }, [Event.progress 35]) := by
    rw [runExtraction, hres]
  refine ⟨{ success := false, error := some "No tracks found in tracking result",
            error_code := some ErrorCode.NO_TRACKS_FOUND,
            error_step := some ProcessStep.TRACK_EXTRACTION }, ?_, rfl, rfl, rfl, ?_⟩
  · simp [runFullPipeline, hok, hsucc, hout, hex1, hext]
  · have hev : (runFullPipeline cfg env vp task_id none fps wrm strength window ema).events =
        (runTracking cfg env vp task_id).2 ++
          ([Event.progress 35] ++ cleanupGeneratedFiles env [p1]) := by
      simp [runFullPipeline, hok, hsucc, hout, hex1, hext]
    rw [hev, invokesOf_append, invokesOf_append, invokesOf_cleanup]
    simp [invokesOf]

/-- An environment where tracking succeeds but the parsed tracking output
has a frame with no subjects at all. -/
def envC7 : PipeEnv :=
  { runCmd := fun _ => CmdOutcome.completed 0 "" "" 2,
    fileExists := fun _ => true,
    loadTracking := fun _ => some [none],
    moveOk := fun _ _ => true, deleteOk := fun _ => true,
    validPath := fun _ => true }

/-- Witness for C7 in the concrete zero-subject environment. -/
theorem c7_witness :
    ∃ fres, (runFullPipeline cfgA envC7 "root/uploads/v.mp4" "t1" none 30 true
        "1.0" "9" "0.2").res = Except.ok fres ∧
      fres.success = false ∧
      fres.error_code = some ErrorCode.NO_TRACKS_FOUND ∧
      fres.error_step = some ProcessStep.TRACK_EXTRACTION ∧
      invokesOf (runFullPipeline cfgA envC7 "root/uploads/v.mp4" "t1" none 30 true
          "1.0" "9" "0.2").events =
        invokesOf (runTracking cfgA envC7 "root/uploads/v.mp4" "t1").2 :=
  c7_no_tracks_short_circuit cfgA envC7 "root/uploads/v.mp4" "t1" 30 true
    "1.0" "9" "0.2"
    { success := true, output_path := some (canonicalPkl cfgA "t1"),
      logs := "", duration := 2 }
    rfl rfl
    (by
      intro p data _ hload
      cases hload
      rfl)

/-! ### C3 -/

theorem c3_assemble (env : PipeEnv) (F : FullRun)
    (hres : ∀ r, F.res = Except.ok r → r.success = false →
      (r.error_step.isSome = true ∧ r.error_code.isSome = true ∧ r.error.isSome = true) ∧
      (r.tracking_pkl = none ∧ r.extracted_npz = none ∧
       r.smoothed_npz = none ∧ r.fbx_path = none))
    (hclean : ∀ p ∈ F.cleaned, p ≠ "" ∧ env.fileExists p = true)
    (hev : ∃ pref, F.events = pref ++ cleanupGeneratedFiles env F.cleaned) :
    (∀ r, F.res = Except.ok r → r.success = false →
      (r.error_step.isSome = true ∧ r.error_code.isSome = true ∧ r.error.isSome = true) ∧
      (r.tracking_pkl = none ∧ r.extracted_npz = none ∧
       r.smoothed_npz = none ∧ r.fbx_path = none)) ∧
    (∀ p ∈ F.cleaned,
      p ≠ "" ∧ env.fileExists p = true ∧
      Event.deleteFile p ∈ F.events ∧
      (env.deleteOk p = true → diskAfter env F.events p = false)) := by
  refine ⟨hres, ?_⟩
  intro p hp
  obtain ⟨hne, hex⟩ := hclean p hp
  obtain ⟨pref, hevs⟩ := hev
  have hmem : Event.deleteFile p ∈ F.events := by
    rw [hevs]
    exact List.mem_append_right _ (cleanup_mem env F.cleaned p hp hne hex)
  refine ⟨hne, hex, hmem, ?_⟩
  intro hdel
  have hdec : decide (Event.deleteFile p ∈ F.events) = true := decide_eq_true hmem
  simp [diskAfter, hex, hdec, hdel]

/-- C3 (amended): whenever the full-pipeline driver returns a structured
failure dict, it carries the failed stage name, an error code and a message
but none of the partial artifact paths; and on every run — returning or
re-raising — each accumulated artifact of the completed earlier stages is a
non-empty existing path whose deletion the compensating cleanup requests
(removing it from disk when the File Handler deletion succeeds). -/
theorem c3_failure_cleanup :
    ∀ (cfg : Settings) (env : PipeEnv) (vp task_id : String) (track_id : Option Int)
      (fps : Nat) (wrm : Bool) (strength window ema : String),
      (∀ r, (runFullPipeline cfg env vp task_id track_id fps wrm strength window ema).res =
          Except.ok r → r.success = false →
        (r.error_step.isSome = true ∧ r.error_code.isSome = true ∧ r.error.isSome = true) ∧
        (r.tracking_pkl = none ∧ r.extracted_npz = none ∧
         r.smoothed_npz = none ∧ r.fbx_path = none)) ∧
      (∀ p ∈ (runFullPipeline cfg env vp task_id track_id fps wrm strength window ema).cleaned,
        p ≠ "" ∧ env.fileExists p = true ∧
        Event.deleteFile p ∈ (runFullPipeline cfg env vp task_id track_id fps wrm strength window ema).events ∧
        (env.deleteOk p = true →
          diskAfter env (runFullPipeline cfg env vp task_id track_id fps wrm strength window ema).events p = false)) := by
  intro cfg env vp task_id track_id fps wrm strength window ema
  rcases hok1 : (runTracking cfg env vp task_id).1 with e1 | r1
  · apply c3_assemble
    · intro r hr hrf
      simp [runFullPipeline, hok1] at hr
    · intro p hp
      simp [runFullPipeline, hok1, cleanupGeneratedFiles] at hp
    · refine ⟨(runTracking cfg env vp task_id).2, ?_⟩
      simp [runFullPipeline, hok1, cleanupGeneratedFiles]
  · by_cases hs1 : r1.success = true
    · obtain ⟨p1, hout1, hex1, hform1⟩ := runTracking_success_shape cfg env vp task_id r1 hok1 hs1
      have hp1ne : p1 ≠ "" := by
        rcases hform1 with h | h <;> (subst h; apply joinPath_ne_empty)
      rcases hok2 : (runExtraction cfg env p1 task_id track_id).1 with e2 | r2
      · apply c3_assemble
        · intro r hr hrf
          simp [runFullPipeline, hok1, hs1, hout1, hex1, hok2] at hr
        · have hcl : (runFullPipeline cfg env vp task_id track_id fps wrm strength window ema).cleaned =
              [p1] := by
            simp [runFullPipeline, hok1, hs1, hout1, hex1, hok2]
          rw [hcl]
          intro p hp
          rcases List.mem_cons.mp hp with h | h
          · exact ⟨h ▸ hp1ne, h ▸ hex1⟩
          · cases h
        · refine ⟨(runTracking cfg env vp task_id).2 ++
            (runExtraction cfg env p1 task_id track_id).2, ?_⟩
          simp [runFullPipeline, hok1, hs1, hout1, hex1, hok2]
      · by_cases hs2 : r2.success = true
        · obtain ⟨tid, hrtid, hout2, hex2⟩ :=
            runExtraction_success_shape cfg env p1 task_id track_id r2 hok2 hs2
          have hp2ne : extractedNpzPath cfg task_id tid ≠ "" := joinPath_ne_empty _ _
          rcases hok3 : (runSmoothing cfg env (extractedNpzPath cfg task_id tid) task_id
              strength window ema).1 with e3 | r3
          · apply c3_assemble
            · intro r hr hrf
              simp [runFullPipeline, hok1, hs1, hout1, hex1, hok2, hs2, hout2, hex2, hok3] at hr
            · have hcl : (runFullPipeline cfg env vp task_id track_id fps wrm strength window ema).cleaned =
                  [p1, extractedNpzPath cfg task_id tid] := by
                simp [runFullPipeline, hok1, hs1, hout1, hex1, hok2, hs2, hout2, hex2, hok3]
              rw [hcl]
              intro p hp
              rcases List.mem_cons.mp hp with h | h
              · exact ⟨h ▸ hp1ne, h ▸ hex1⟩
              rcases List.mem_cons.mp h with h2 | h2
              · exact ⟨h2 ▸ hp2ne, h2 ▸ hex2⟩
              · cases h2
            · refine ⟨(runTracking cfg env vp task_id).2 ++
                (runExtraction cfg env p1 task_id track_id).2 ++
                (runSmoothing cfg env (extractedNpzPath cfg task_id tid) task_id
                  strength window ema).2, ?_⟩
              simp [runFullPipeline, hok1, hs1, hout1, hex1, hok2, hs2, hout2, hex2, hok3]
          · by_cases hs3 : r3.success = true
            · obtain ⟨hout3, hex3⟩ := runSmoothing_success_shape cfg env
                (extractedNpzPath cfg task_id tid) task_id strength window ema r3 hok3 hs3
              have hp3ne : smoothedNpzPath cfg task_id ≠ "" := joinPath_ne_empty _ _
              rcases hok4 : (runFbxExport cfg env (smoothedNpzPath cfg task_id) task_id
                  fps wrm).1 with e4 | r4
              · apply c3_assemble
                · intro r hr hrf
                  simp [runFullPipeline, hok1, hs1, hout1, hex1, hok2, hs2, hout2, hex2,
                    hok3, hs3, hout3, hex3, hok4] at hr
                · have hcl : (runFullPipeline cfg env vp task_id track_id fps wrm strength window ema).cleaned =
                      [p1, extractedNpzPath cfg task_id tid, smoothedNpzPath cfg task_id] := by
                    simp [runFullPipeline, hok1, hs1, hout1, hex1, hok2, hs2, hout2, hex2,
                      hok3, hs3, hout3, hex3, hok4]
                  rw [hcl]
                  intro p hp
                  rcases List.mem_cons.mp hp with h | h
                  · exact ⟨h ▸ hp1ne, h ▸ hex1⟩
                  rcases List.mem_cons.mp h with h2 | h2
                  · exact ⟨h2 ▸ hp2ne, h2 ▸ hex2⟩
                  rcases List.mem_cons.mp h2 with h3 | h3
                  · exact ⟨h3 ▸ hp3ne, h3 ▸ hex3⟩
                  · cases h3
                · refine ⟨(runTracking cfg env vp task_id).2 ++
                    (runExtraction cfg env p1 task_id track_id).2 ++
                    (runSmoothing cfg env (extractedNpzPath cfg task_id tid) task_id
                      strength window ema).2 ++
                    (runFbxExport cfg env (smoothedNpzPath cfg task_id) task_id fps wrm).2, ?_⟩
                  simp [runFullPipeline, hok1, hs1, hout1, hex1, hok2, hs2, hout2, hex2,
                    hok3, hs3, hout3, hex3, hok4]
              · by_cases hs4 : r4.success = true
                · obtain ⟨p4, hout4, hex4, _⟩ := runFbxExport_success_shape cfg env
                    (smoothedNpzPath cfg task_id) task_id fps wrm r4 hok4 hs4
                  apply c3_assemble
                  · intro r hr hrf
                    simp [runFullPipeline, hok1, hs1, hout1, hex1, hok2, hs2, hout2, hex2,
                      hok3, hs3, hout3, hex3, hok4, hs4, hout4, hex4] at hr
                    subst hr
                    simp at hrf
                  · intro p hp
                    simp [runFullPipeline, hok1, hs1, hout1, hex1, hok2, hs2, hout2, hex2,
                      hok3, hs3, hout3, hex3, hok4, hs4, hout4, hex4,
                      cleanupGeneratedFiles] at hp
                  · refine ⟨(runFullPipeline cfg env vp task_id track_id fps wrm
                      strength window ema).events, ?_⟩
                    have hcl : (runFullPipeline cfg env vp task_id track_id fps wrm
                        strength window ema).cleaned = [] := by
                      simp [runFullPipeline, hok1, hs1, hout1, hex1, hok2, hs2, hout2, hex2,
                        hok3, hs3, hout3, hex3, hok4, hs4, hout4, hex4]
                    rw [hcl]
                    simp [cleanupGeneratedFiles]
                · have hs4f : r4.success = false := by simpa using hs4
                  obtain ⟨herr4, hcode4⟩ := runFbxExport_failed cfg env
                    (smoothedNpzPath cfg task_id) task_id fps wrm r4 hok4 hs4f
                  apply c3_assemble
                  · intro r hr hrf
                    simp [runFullPipeline, hok1, hs1, hout1, hex1, hok2, hs2, hout2, hex2,
                      hok3, hs3, hout3, hex3, hok4, hs4f] at hr
                    subst hr
                    exact ⟨⟨by simp, by simpa using hcode4, by simpa using herr4⟩,
                      by simp, by simp, by simp, by simp⟩
                  · have hcl : (runFullPipeline cfg env vp task_id track_id fps wrm strength window ema).cleaned =
                        [p1, extractedNpzPath cfg task_id tid, smoothedNpzPath cfg task_id] := by
                      simp [runFullPipeline, hok1, hs1, hout1, hex1, hok2, hs2, hout2, hex2,
                        hok3, hs3, hout3, hex3, hok4, hs4f]
                    rw [hcl]
                    intro p hp
                    rcases List.mem_cons.mp hp with h | h
                    · exact ⟨h ▸ hp1ne, h ▸ hex1⟩
                    rcases List.mem_cons.mp h with h2 | h2
                    · exact ⟨h2 ▸ hp2ne, h2 ▸ hex2⟩
                    rcases List.mem_cons.mp h2 with h3 | h3
                    · exact ⟨h3 ▸ hp3ne, h3 ▸ hex3⟩
                    · cases h3
                  · refine ⟨(runTracking cfg env vp task_id).2 ++
                      (runExtraction cfg env p1 task_id track_id).2 ++
                      (runSmoothing cfg env (extractedNpzPath cfg task_id tid) task_id
                        strength window ema).2 ++
                      (runFbxExport cfg env (smoothedNpzPath cfg task_id) task_id fps wrm).2, ?_⟩
                    simp [runFullPipeline, hok1, hs1, hout1, hex1, hok2, hs2, hout2, hex2,
                      hok3, hs3, hout3, hex3, hok4, hs4f]
            · have hs3f : r3.success = false := by simpa using hs3
              obtain ⟨herr3, hcode3⟩ := runSmoothing_failed cfg env
                (extractedNpzPath cfg task_id tid) task_id strength window ema r3 hok3 hs3f
              apply c3_assemble
              · intro r hr hrf
                simp [runFullPipeline, hok1, hs1, hout1, hex1, hok2, hs2, hout2, hex2,
                  hok3, hs3f] at hr
                subst hr
                exact ⟨⟨by simp, by simpa using hcode3, by simpa using herr3⟩,
                  by simp, by simp, by simp, by simp⟩
              · have hcl : (runFullPipeline cfg env vp task_id track_id fps wrm strength window ema).cleaned =
                    [p1, extractedNpzPath cfg task_id tid] := by
                  simp [runFullPipeline, hok1, hs1, hout1, hex1, hok2, hs2, hout2, hex2,
                    hok3, hs3f]
                rw [hcl]
                intro p hp
                rcases List.mem_cons.mp hp with h | h
                · exact ⟨h ▸ hp1ne, h ▸ hex1⟩
                rcases List.mem_cons.mp h with h2 | h2
                · exact ⟨h2 ▸ hp2ne, h2 ▸ hex2⟩
                · cases h2
              · refine ⟨(runTracking cfg env vp task_id).2 ++
                  (runExtraction cfg env p1 task_id track_id).2 ++
                  (runSmoothing cfg env (extractedNpzPath cfg task_id tid) task_id
                    strength window ema).2, ?_⟩
                simp [runFullPipeline, hok1, hs1, hout1, hex1, hok2, hs2, hout2, hex2,
                  hok3, hs3f]
        · have hs2f : r2.success = false := by simpa using hs2
          obtain ⟨herr2, hcode2⟩ := runExtraction_failed cfg env p1 task_id track_id r2 hok2 hs2f
          apply c3_assemble
          · intro r hr hrf
            simp [runFullPipeline, hok1, hs1, hout1, hex1, hok2, hs2f] at hr
            subst hr
            exact ⟨⟨by simp, by simpa using hcode2, by simpa using herr2⟩,
              by simp, by simp, by simp, by simp⟩
          · have hcl : (runFullPipeline cfg env vp task_id track_id fps wrm strength window ema).cleaned =
                [p1] := by
              simp [runFullPipeline, hok1, hs1, hout1, hex1, hok2, hs2f]
            rw [hcl]
            intro p hp
            rcases List.mem_cons.mp hp with h | h
            · exact ⟨h ▸ hp1ne, h ▸ hex1⟩
            · cases h
          · refine ⟨(runTracking cfg env vp task_id).2 ++
              (runExtraction cfg env p1 task_id track_id).2, ?_⟩
            simp [runFullPipeline, hok1, hs1, hout1, hex1, hok2, hs2f]
    · have hs1f : r1.success = false := by simpa using hs1
      obtain ⟨herr1, hcode1⟩ := runTracking_failed cfg env vp task_id r1 hok1 hs1f
      apply c3_assemble
      · intro r hr hrf
        simp [runFullPipeline, hok1, hs1f] at hr
        subst hr
        exact ⟨⟨by simp, by simpa using hcode1, by simpa using herr1⟩,
          by simp, by simp, by simp, by simp⟩
      · intro p hp
        simp [runFullPipeline, hok1, hs1f, cleanupGeneratedFiles] at hp
      · refine ⟨(runTracking cfg env vp task_id).2, ?_⟩
        simp [runFullPipeline, hok1, hs1f, cleanupGeneratedFiles]

/-- An environment where the tracking tool succeeds (and its output is
renamed to the canonical path) but the extraction tool exits non-zero. -/
def envC3 : PipeEnv :=
  { runCmd := fun c =>
      if c = trackingCmd cfgA "root/uploads/v.mp4" then CmdOutcome.completed 0 "" "" 2
      else CmdOutcome.completed 1 "" "boom" 2,
    fileExists := fun _ => true,
    loadTracking := fun _ => some [some [7]],
    moveOk := fun _ _ => true, deleteOk := fun _ => true,
    validPath := fun _ => true }

/-- The structured failure dict of the concrete extraction-failure run used
for the C3 counterexample and witness. -/
def c3res : FullResult :=
  { success := false, error := some "boom",
    error_code := some ErrorCode.TRACK_EXTRACTION_FAILED,
    error_step := some ProcessStep.TRACK_EXTRACTION }

/-- C3 counterexample: a run whose tracking stage produced an artifact (it
is in the cleanup list) and whose extraction stage failed, yet the
structured failure dict carries none of the partial artifact paths —
refuting the claim that the failure result includes them for diagnostics. -/
theorem c3_counterexample :
    (runFullPipeline cfgA envC3 "root/uploads/v.mp4" "t1" (some 7) 30 true
        "1.0" "9" "0.2").res = Except.ok c3res ∧
    c3res.tracking_pkl = none ∧ c3res.extracted_npz = none ∧
    c3res.smoothed_npz = none ∧ c3res.fbx_path = none ∧
    (runFullPipeline cfgA envC3 "root/uploads/v.mp4" "t1" (some 7) 30 true
        "1.0" "9" "0.2").cleaned = [canonicalPkl cfgA "t1"] ∧
    Event.deleteFile (canonicalPkl cfgA "t1") ∈
      (runFullPipeline cfgA envC3 "root/uploads/v.mp4" "t1" (some 7) 30 true
        "1.0" "9" "0.2").events := by
  refine ⟨by decide, rfl, rfl, rfl, rfl, by decide, by decide⟩

/-- Witness for C3 (amended) at the concrete extraction-failure run. -/
theorem c3_witness :
    ((runFullPipeline cfgA envC3 "root/uploads/v.mp4" "t1" (some 7) 30 true
        "1.0" "9" "0.2").res = Except.ok c3res ∧
     c3res.tracking_pkl = none) ∧
    Event.deleteFile (canonicalPkl cfgA "t1") ∈
      (runFullPipeline cfgA envC3 "root/uploads/v.mp4" "t1" (some 7) 30 true
        "1.0" "9" "0.2").events := by
  have h := c3_failure_cleanup cfgA envC3 "root/uploads/v.mp4" "t1" (some 7) 30 true
    "1.0" "9" "0.2"
  refine ⟨⟨by decide, ?_⟩, ?_⟩
  · exact ((h.1 c3res (by decide) (by decide)).2).1
  · exact (h.2 (canonicalPkl cfgA "t1") (by decide)).2.2.1

end FourDH
